import Mathlib

/-!
# terrain-generator: `generate.go`

A shallow embedding of package `tg` (file `generate.go`) together with the
properties of it that the specification states.

## Number model

Go's `float64` is embedded as `Float64`: a rational number, or one of the
three IEEE-754 special values `+Inf`, `-Inf`, `NaN`.  Finite results are kept
exact (no rounding, no overflow), so statements about finite values are
statements "in exact arithmetic"; the special values follow the IEEE-754
rules for `+`, `*`, `/` and `>` (a zero divisor is taken to be `+0`).
The constants of the colouring ladder are the exact values of the `float64`
constants of the source, and `depthIn` states the depth computation for any
arithmetic, the rounded one of `float64` included.
Go's `int` is embedded as `Int`; no `int` computation in the file can
overflow (the only arithmetic on an `int` is the increment of a loop counter
that stays below its bound).

## External collaborators

* `opensimplex.New(seed).Eval2` is a parameter `noise : Float64 → Float64 → Float64`.
* `gg.Context` is embedded as the record of what `Generate` asks of it: the
  size given to `NewContext`, the colour selected by the last `SetRGB255`
  and the sequence of `SetPixel` calls, each with the colour selected at
  that moment.
-/

namespace tg

/-! ## float64 -/

/-- Go `float64`, without rounding: a rational or an IEEE-754 special value. -/
inductive Float64 where
  | fin (q : ℚ)
  | pinf
  | ninf
  | nan
  deriving DecidableEq

namespace Float64

/-- IEEE-754 addition: `NaN` is absorbing, `+Inf + -Inf = NaN`. -/
def add : Float64 → Float64 → Float64
  | fin a, fin b => fin (a + b)
  | fin _, pinf => pinf
  | fin _, ninf => ninf
  | pinf, fin _ => pinf
  | pinf, pinf => pinf
  | pinf, ninf => nan
  | ninf, fin _ => ninf
  | ninf, ninf => ninf
  | ninf, pinf => nan
  | nan, _ => nan
  | fin _, nan => nan
  | pinf, nan => nan
  | ninf, nan => nan

/-- The infinity whose sign is the sign of `q`, and `NaN` when `q = 0`. -/
def signedInf (q : ℚ) : Float64 :=
  if q = 0 then nan else if 0 < q then pinf else ninf

/-- IEEE-754 multiplication: `0 * Inf = NaN`, otherwise the signs multiply. -/
def mul : Float64 → Float64 → Float64
  | fin a, fin b => fin (a * b)
  | fin a, pinf => signedInf a
  | fin a, ninf => signedInf (-a)
  | pinf, fin b => signedInf b
  | ninf, fin b => signedInf (-b)
  | pinf, pinf => pinf
  | pinf, ninf => ninf
  | ninf, pinf => ninf
  | ninf, ninf => pinf
  | nan, _ => nan
  | fin _, nan => nan
  | pinf, nan => nan
  | ninf, nan => nan

/-- IEEE-754 division: `0 / 0 = NaN`, `a / 0 = ±Inf` for `a ≠ 0` (the zero
divisor counted as `+0`), `Inf / Inf = NaN`, `a / ±Inf = 0`. -/
def div : Float64 → Float64 → Float64
  | fin a, fin b => if b = 0 then signedInf a else fin (a / b)
  | fin _, pinf => fin 0
  | fin _, ninf => fin 0
  | pinf, fin b => if 0 ≤ b then pinf else ninf
  | ninf, fin b => if 0 ≤ b then ninf else pinf
  | pinf, pinf => nan
  | pinf, ninf => nan
  | ninf, pinf => nan
  | ninf, ninf => nan
  | nan, _ => nan
  | fin _, nan => nan
  | pinf, nan => nan
  | ninf, nan => nan

/-- IEEE-754 ordered comparison `a < b`: false as soon as one side is `NaN`. -/
def lt : Float64 → Float64 → Prop
  | fin a, fin b => a < b
  | fin _, pinf => True
  | ninf, fin _ => True
  | ninf, pinf => True
  | _, _ => False

instance : Add Float64 := ⟨add⟩
instance : Mul Float64 := ⟨mul⟩
instance : Div Float64 := ⟨div⟩
instance : LT Float64 := ⟨lt⟩

instance decLt : DecidableRel (fun a b : Float64 => a < b) := fun a b =>
  match a, b with
  | fin x, fin y => inferInstanceAs (Decidable (x < y))
  | fin _, pinf => isTrue trivial
  | fin _, ninf => isFalse (fun h => h)
  | fin _, nan => isFalse (fun h => h)
  | pinf, fin _ => isFalse (fun h => h)
  | pinf, pinf => isFalse (fun h => h)
  | pinf, ninf => isFalse (fun h => h)
  | pinf, nan => isFalse (fun h => h)
  | ninf, fin _ => isTrue trivial
  | ninf, pinf => isTrue trivial
  | ninf, ninf => isFalse (fun h => h)
  | ninf, nan => isFalse (fun h => h)
  | nan, fin _ => isFalse (fun h => h)
  | nan, pinf => isFalse (fun h => h)
  | nan, ninf => isFalse (fun h => h)
  | nan, nan => isFalse (fun h => h)

/-- The conversion `float64(x)` of an `int`; exact below `2^53`. -/
def ofInt (x : Int) : Float64 := fin x

end Float64

open Float64

/-! ## Data model (`generate.go`, lines 16-35) -/

/-- The `color` struct: three `int` channels. -/
structure color where
  r : Int
  g : Int
  b : Int
  deriving DecidableEq

/-- The `TerrainMap` struct. -/
structure TerrainMap where
  scale : Float64
  lacunarity : Float64
  persistance : Float64
  octaves : Int
  deepWater : color
  mediumWater : color
  shallowWater : color
  sand : color
  lowGrass : color
  highGrass : color
  rock : color
  snow : color

/-- The function `NewDefault`. -/
def NewDefault : TerrainMap :=
  { scale := fin 125.0
    lacunarity := fin 2.0
    persistance := fin 0.5
    octaves := 5
    deepWater := { r := 8, g := 50, b := 201 }
    mediumWater := { r := 8, g := 66, b := 201 }
    shallowWater := { r := 8, g := 114, b := 201 }
    sand := { r := 255, g := 228, b := 110 }
    lowGrass := { r := 23, g := 140, b := 22 }
    highGrass := { r := 23, g := 120, b := 22 }
    rock := { r := 55, g := 63, b := 66 }
    snow := { r := 230, g := 232, b := 237 } }

/-! ## Setters (`generate.go`, lines 112-165) -/

/-- The method `SetGenerationModifiers`: the receiver after the call. -/
def SetGenerationModifiers (tm : TerrainMap) (scale lacunarity persistance : Float64)
    (octaves : Int) : TerrainMap :=
  let tm := { tm with scale := scale }
  let tm := { tm with lacunarity := lacunarity }
  let tm := { tm with persistance := persistance }
  { tm with octaves := octaves }

/-- The method `SetDeepWaterColor`: the receiver after the three field writes. -/
def SetDeepWaterColor (tm : TerrainMap) (r g b : Int) : TerrainMap :=
  let tm := { tm with deepWater := { tm.deepWater with r := r } }
  let tm := { tm with deepWater := { tm.deepWater with g := g } }
  { tm with deepWater := { tm.deepWater with b := b } }

/-- The method `SetMediumWaterColor`. -/
def SetMediumWaterColor (tm : TerrainMap) (r g b : Int) : TerrainMap :=
  let tm := { tm with mediumWater := { tm.mediumWater with r := r } }
  let tm := { tm with mediumWater := { tm.mediumWater with g := g } }
  { tm with mediumWater := { tm.mediumWater with b := b } }

/-- The method `SetShallowWaterColor`. -/
def SetShallowWaterColor (tm : TerrainMap) (r g b : Int) : TerrainMap :=
  let tm := { tm with shallowWater := { tm.shallowWater with r := r } }
  let tm := { tm with shallowWater := { tm.shallowWater with g := g } }
  { tm with shallowWater := { tm.shallowWater with b := b } }

/-- The method `SetSandColor`. -/
def SetSandColor (tm : TerrainMap) (r g b : Int) : TerrainMap :=
  let tm := { tm with sand := { tm.sand with r := r } }
  let tm := { tm with sand := { tm.sand with g := g } }
  { tm with sand := { tm.sand with b := b } }

/-- The method `SetLowGrassColor`. -/
def SetLowGrassColor (tm : TerrainMap) (r g b : Int) : TerrainMap :=
  let tm := { tm with lowGrass := { tm.lowGrass with r := r } }
  let tm := { tm with lowGrass := { tm.lowGrass with g := g } }
  { tm with lowGrass := { tm.lowGrass with b := b } }

/-- The method `SetHighGrassColor`. -/
def SetHighGrassColor (tm : TerrainMap) (r g b : Int) : TerrainMap :=
  let tm := { tm with highGrass := { tm.highGrass with r := r } }
  let tm := { tm with highGrass := { tm.highGrass with g := g } }
  { tm with highGrass := { tm.highGrass with b := b } }

/-- The method `SetRockColor`. -/
def SetRockColor (tm : TerrainMap) (r g b : Int) : TerrainMap :=
  let tm := { tm with rock := { tm.rock with r := r } }
  let tm := { tm with rock := { tm.rock with g := g } }
  { tm with rock := { tm.rock with b := b } }

/-- The method `SetSnowColor`. -/
def SetSnowColor (tm : TerrainMap) (r g b : Int) : TerrainMap :=
  let tm := { tm with snow := { tm.snow with r := r } }
  let tm := { tm with snow := { tm.snow with g := g } }
  { tm with snow := { tm.snow with b := b } }


/-! ## The drawing context (`gg.Context`, as far as `Generate` uses it) -/

/-- One `SetPixel(x, y)` call, with the colour that was selected when it was made. -/
structure PixelWrite where
  x : Int
  y : Int
  c : color
  deriving DecidableEq

/-- The state of a `gg.Context` that `Generate` can observe or change. -/
structure Context where
  width : Int
  height : Int
  current : color
  writes : List PixelWrite

namespace Context

/-- The call `gg.NewContext(width, height)`: no pixel written yet.  The colour
selected at the start is never written by `Generate`, which selects one before
every `SetPixel`. -/
def NewContext (width height : Int) : Context :=
  { width := width, height := height, current := { r := 0, g := 0, b := 0 }, writes := [] }

/-- The method `Width`. -/
def Width (dc : Context) : Int := dc.width

/-- The method `Height`. -/
def Height (dc : Context) : Int := dc.height

/-- The method `SetRGB255`: selects the current colour. -/
def SetRGB255 (dc : Context) (r g b : Int) : Context :=
  { dc with current := { r := r, g := g, b := b } }

/-- The method `SetPixel`: writes the current colour at `(x, y)`. -/
def SetPixel (dc : Context) (x y : Int) : Context :=
  { dc with writes := dc.writes ++ [{ x := x, y := y, c := dc.current }] }

/-- The writes made at `(x, y)`, in call order. -/
def writesAt (dc : Context) (x y : Int) : List PixelWrite :=
  dc.writes.filter (fun w => decide (w.x = x ∧ w.y = y))

/-- The colour of pixel `(x, y)` of the grid: that of the last write made
there, if any. -/
def pixelAt (dc : Context) (x y : Int) : Option color :=
  (dc.writesAt x y).getLast?.map (fun w => w.c)

end Context

open Context

/-! ## `Generate` (`generate.go`, lines 56-110) -/

/-- The variables of the octave loop (lines 68-71). -/
structure OctaveState where
  frequency : Float64
  amplitude : Float64
  normalizeOctaves : Float64
  total : Float64

/-- One pass through the body of the octave loop (lines 75-78). -/
def octaveBody (tm : TerrainMap) (noise : Float64 → Float64 → Float64)
    (sampleX sampleY : Float64) (s : OctaveState) : OctaveState :=
  let total := s.total + noise (sampleX * s.frequency) (sampleY * s.frequency) * s.amplitude
  let normalizeOctaves := s.normalizeOctaves + s.amplitude
  let amplitude := s.amplitude * tm.persistance
  let frequency := s.frequency * tm.lacunarity
  { frequency := frequency, amplitude := amplitude,
    normalizeOctaves := normalizeOctaves, total := total }

/-- The octave loop `for i := 0; i < tm.octaves; i++` (line 74), by the number
of passes left. -/
def octaveLoop (tm : TerrainMap) (noise : Float64 → Float64 → Float64)
    (sampleX sampleY : Float64) : Nat → OctaveState → OctaveState
  | 0, s => s
  | n + 1, s => octaveLoop tm noise sampleX sampleY n (octaveBody tm noise sampleX sampleY s)

/-- The values with which the octave loop starts (lines 68-71). -/
def octaveInit : OctaveState :=
  { frequency := fin 1.0, amplitude := fin 1.0, normalizeOctaves := fin 0.0, total := fin 0.0 }

/-- The state in which the octave loop ends for pixel `(x, y)` (lines 64-79).
The loop makes `tm.octaves` passes, none when `tm.octaves ≤ 0`. -/
def octaves (tm : TerrainMap) (noise : Float64 → Float64 → Float64) (x y : Int) :
    OctaveState :=
  let sampleX := ofInt x / tm.scale
  let sampleY := ofInt y / tm.scale
  octaveLoop tm noise sampleX sampleY tm.octaves.toNat octaveInit

/-- The value of `depth` for pixel `(x, y)` (line 82). -/
def depth (tm : TerrainMap) (noise : Float64 → Float64 → Float64) (x y : Int) : Float64 :=
  let s := octaves tm noise x y
  (s.total / s.normalizeOctaves + fin 1) / fin 2

/-! ## The `float64` constants of the ladder

Go converts the untyped constants `0.70`, `0.56`, ... of lines 86-98 to
`float64` before it compares: each is the double nearest to the decimal,
`m / 2^e` with a 53-bit `m`. -/

/-- The `float64` constant `0.70` (a little below 7/10). -/
def f0_70 : ℚ := 6305039478318694 / 2 ^ 53

/-- The `float64` constant `0.56` (a little above 14/25). -/
def f0_56 : ℚ := 5044031582654956 / 2 ^ 53

/-- The `float64` constant `0.52` (a little above 13/25). -/
def f0_52 : ℚ := 4683743612465316 / 2 ^ 53

/-- The `float64` constant `0.50`, exactly 1/2. -/
def f0_50 : ℚ := 4503599627370496 / 2 ^ 53

/-- The `float64` constant `0.41` (a little below 41/100). -/
def f0_41 : ℚ := 7385903388887613 / 2 ^ 54

/-- The `float64` constant `0.31` (a little below 31/100). -/
def f0_31 : ℚ := 5584463537939415 / 2 ^ 54

/-- The `float64` constant `0.23` (a little above 23/100). -/
def f0_23 : ℚ := 8286623314361713 / 2 ^ 55

/-- The colouring ladder (lines 86-102). -/
def colorTerrain (tm : TerrainMap) (depth : Float64) (dc : Context) : Context :=
  if depth > fin f0_70 then
    dc.SetRGB255 tm.deepWater.r tm.deepWater.g tm.deepWater.b
  else if depth > fin f0_56 then
    dc.SetRGB255 tm.mediumWater.r tm.mediumWater.g tm.mediumWater.b
  else if depth > fin f0_52 then
    dc.SetRGB255 tm.shallowWater.r tm.shallowWater.g tm.shallowWater.b
  else if depth > fin f0_50 then
    dc.SetRGB255 tm.sand.r tm.sand.g tm.sand.b
  else if depth > fin f0_41 then
    dc.SetRGB255 tm.lowGrass.r tm.lowGrass.g tm.lowGrass.b
  else if depth > fin f0_31 then
    dc.SetRGB255 tm.highGrass.r tm.highGrass.g tm.highGrass.b
  else if depth > fin f0_23 then
    dc.SetRGB255 tm.rock.r tm.rock.g tm.rock.b
  else
    dc.SetRGB255 tm.snow.r tm.snow.g tm.snow.b

/-- The body of the pixel loops (lines 63-105). -/
def pixelBody (tm : TerrainMap) (noise : Float64 → Float64 → Float64) (x y : Int)
    (dc : Context) : Context :=
  let depth := depth tm noise x y
  let dc := colorTerrain tm depth dc
  dc.SetPixel x y

/-- The inner loop `for x := 0; x < dc.Width(); x++` (line 62) for row `y`. -/
def rowLoop (tm : TerrainMap) (noise : Float64 → Float64 → Float64) (y : Int)
    (dc : Context) : Context :=
  (List.range dc.Width.toNat).foldl (fun dc (x : Nat) => pixelBody tm noise (x : Int) y dc) dc

/-- The outer loop `for y := 0; y < dc.Height(); y++` (line 61). -/
def gridLoop (tm : TerrainMap) (noise : Float64 → Float64 → Float64) (dc : Context) :
    Context :=
  (List.range dc.Height.toNat).foldl (fun dc (y : Nat) => rowLoop tm noise (y : Int) dc) dc

/-- The method `Generate`, for the noise function `noise` that
`opensimplex.New(rand.Int63())` returned: the receiver after the call and the
drawing context that is passed to `SavePNG`. -/
def Generate (tm : TerrainMap) (noise : Float64 → Float64 → Float64) :
    TerrainMap × Context :=
  let dc := NewContext 750 500
  let dc := gridLoop tm noise dc
  (tm, dc)

/-! ## Bands -/

/-- The eight branches of the colouring ladder. -/
inductive Band where
  | deepWater
  | mediumWater
  | shallowWater
  | sand
  | lowGrass
  | highGrass
  | rock
  | snow
  deriving DecidableEq

/-- The branch of the colouring ladder (lines 86-102) taken for `depth`. -/
def classify (depth : Float64) : Band :=
  if depth > fin f0_70 then .deepWater
  else if depth > fin f0_56 then .mediumWater
  else if depth > fin f0_52 then .shallowWater
  else if depth > fin f0_50 then .sand
  else if depth > fin f0_41 then .lowGrass
  else if depth > fin f0_31 then .highGrass
  else if depth > fin f0_23 then .rock
  else .snow

/-- The colour that the configuration holds for a band: the field whose three
channels the branch for that band passes to `SetRGB255`. -/
def bandColor (tm : TerrainMap) : Band → color
  | .deepWater => tm.deepWater
  | .mediumWater => tm.mediumWater
  | .shallowWater => tm.shallowWater
  | .sand => tm.sand
  | .lowGrass => tm.lowGrass
  | .highGrass => tm.highGrass
  | .rock => tm.rock
  | .snow => tm.snow

/-- The colour written at pixel `(x, y)`. -/
def pixelColor (tm : TerrainMap) (noise : Float64 → Float64 → Float64) (x y : Int) : color :=
  bandColor tm (classify (depth tm noise x y))

/-! ## The pixel loops as a traversal -/

/-- The pixel coordinates `(x, y)` in the order in which the two loops of
`Generate` visit a `w` by `h` grid: row by row, each row from left to right. -/
def rowMajor (w h : Nat) : List (Int × Int) :=
  (List.range h).flatMap (fun (y : Nat) => (List.range w).map (fun (x : Nat) => ((x : Int), (y : Int))))

/-- The body of the pixel loops run over the coordinates of `order`, in that order. -/
def render (tm : TerrainMap) (noise : Float64 → Float64 → Float64)
    (order : List (Int × Int)) (dc : Context) : Context :=
  order.foldl (fun dc p => pixelBody tm noise p.1 p.2 dc) dc

/-- The `SetPixel` call that the loop body makes for the pixel `p`. -/
def writeOf (tm : TerrainMap) (noise : Float64 → Float64 → Float64) (p : Int × Int) :
    PixelWrite :=
  { x := p.1, y := p.2, c := pixelColor tm noise p.1 p.2 }

/-- The noise function that returns `0.0` for every sample. -/
def zeroNoise : Float64 → Float64 → Float64 := fun _ _ => fin 0.0

/-- The setter named after a band. -/
def setColor : Band → TerrainMap → Int → Int → Int → TerrainMap
  | .deepWater => SetDeepWaterColor
  | .mediumWater => SetMediumWaterColor
  | .shallowWater => SetShallowWaterColor
  | .sand => SetSandColor
  | .lowGrass => SetLowGrassColor
  | .highGrass => SetHighGrassColor
  | .rock => SetRockColor
  | .snow => SetSnowColor

/-- A configuration with a negative persistance and two octaves. -/
def negativePersistance : TerrainMap :=
  SetGenerationModifiers NewDefault (fin 125.0) (fin 2.0) (fin (-0.5)) 2

/-- A noise function with values in `[-1, 1]`: `1` on the line `x = 1`, `-1` elsewhere. -/
def ridgeNoise : Float64 → Float64 → Float64 :=
  fun a _ => if a = fin 1 then fin 1 else fin (-1)

/-- IEEE-754 ordered comparison `a ≤ b`: false as soon as one side is `NaN`. -/
def Float64.le : Float64 → Float64 → Prop
  | .fin a, .fin b => a ≤ b
  | .fin _, .pinf => True
  | .ninf, .fin _ => True
  | .ninf, .pinf => True
  | .ninf, .ninf => True
  | .pinf, .pinf => True
  | _, _ => False

instance : LE Float64 := ⟨Float64.le⟩

/-- The position of a band in the order in which the ladder tests them:
deepWater first, snow last. -/
def Band.rank : Band → Nat
  | .deepWater => 0
  | .mediumWater => 1
  | .shallowWater => 2
  | .sand => 3
  | .lowGrass => 4
  | .highGrass => 5
  | .rock => 6
  | .snow => 7

/-- The seven comparisons of the ladder (lines 86-98), in the order of the
source: the threshold and the band that `depth > threshold` selects.  The
eighth band, snow, is the `else` branch and has no threshold. -/
def ladder : List (ℚ × Band) :=
  [(f0_70, .deepWater), (f0_56, .mediumWater), (f0_52, .shallowWater), (f0_50, .sand),
    (f0_41, .lowGrass), (f0_31, .highGrass), (f0_23, .rock)]

/-- A configuration whose two amplitudes cancel: persistance `-1.0`, two octaves. -/
def cancellingPersistance : TerrainMap :=
  SetGenerationModifiers NewDefault (fin 125.0) (fin 2.0) (fin (-1.0)) 2

/-- The sum `total` of the octave loop after `n` passes, in exact arithmetic:
octave `i` is sampled at `(sampleX * l^i, sampleY * l^i)` and weighted by `p^i`. -/
def totalSum (f : Float64 → Float64 → ℚ) (sampleX sampleY : Float64) (l p : ℚ) (n : Nat) : ℚ :=
  ((List.range n).map
    (fun i => f (sampleX * fin (l ^ i)) (sampleY * fin (l ^ i)) * p ^ i)).sum

/-- The sum `normalizeOctaves` of the octave loop after `n` passes, in exact
arithmetic: the amplitudes `p^i`. -/
def normalizerSum (p : ℚ) (n : Nat) : ℚ :=
  ((List.range n).map (fun i => p ^ i)).sum

/-! ## The depth computation over an arbitrary arithmetic

Lines 64-82 use the conversion `float64(x)`, the operations `+`, `*`, `/`
and the constants `0.0`, `1.0` (the `1` of line 82 is the same value) and
`2`.  `depthIn` is that computation with the arithmetic as a parameter, so
that a statement about it holds for the rounded `float64` operations as well
as for the exact ones of `Float64`. -/

/-- The arithmetic of lines 64-82. -/
structure Arith (α : Type) where
  ofInt : Int → α
  add : α → α → α
  mul : α → α → α
  div : α → α → α
  zero : α
  one : α
  two : α

/-- The variables of the octave loop (lines 68-71), over any arithmetic. -/
structure OctaveStateIn (α : Type) where
  frequency : α
  amplitude : α
  normalizeOctaves : α
  total : α

/-- One pass through the body of the octave loop (lines 75-78), over any arithmetic. -/
def octaveBodyIn {α : Type} (A : Arith α) (lacunarity persistance : α) (noise : α → α → α)
    (sampleX sampleY : α) (s : OctaveStateIn α) : OctaveStateIn α :=
  let total :=
    A.add s.total (A.mul (noise (A.mul sampleX s.frequency) (A.mul sampleY s.frequency))
      s.amplitude)
  let normalizeOctaves := A.add s.normalizeOctaves s.amplitude
  let amplitude := A.mul s.amplitude persistance
  let frequency := A.mul s.frequency lacunarity
  { frequency := frequency, amplitude := amplitude,
    normalizeOctaves := normalizeOctaves, total := total }

/-- The octave loop (line 74) by the number of passes left, over any arithmetic. -/
def octaveLoopIn {α : Type} (A : Arith α) (lacunarity persistance : α) (noise : α → α → α)
    (sampleX sampleY : α) : Nat → OctaveStateIn α → OctaveStateIn α
  | 0, s => s
  | n + 1, s =>
    octaveLoopIn A lacunarity persistance noise sampleX sampleY n
      (octaveBodyIn A lacunarity persistance noise sampleX sampleY s)

/-- The value of `depth` for pixel `(x, y)` (lines 64-82), over any arithmetic. -/
def depthIn {α : Type} (A : Arith α) (scale lacunarity persistance : α) (octaves : Int)
    (noise : α → α → α) (x y : Int) : α :=
  let sampleX := A.div (A.ofInt x) scale
  let sampleY := A.div (A.ofInt y) scale
  let s := octaveLoopIn A lacunarity persistance noise sampleX sampleY octaves.toNat
    { frequency := A.one, amplitude := A.one, normalizeOctaves := A.zero, total := A.zero }
  A.div (A.add (A.div s.total s.normalizeOctaves) A.one) A.two

/-- The exact arithmetic of `Float64`. -/
def exactArith : Arith Float64 :=
  { ofInt := ofInt
    add := fun a b => a + b
    mul := fun a b => a * b
    div := fun a b => a / b
    zero := fin 0.0
    one := fin 1.0
    two := fin 2 }

/-- An octave state of the exact arithmetic as a state over `exactArith`. -/
def OctaveState.toIn (s : OctaveState) : OctaveStateIn Float64 :=
  { frequency := s.frequency, amplitude := s.amplitude,
    normalizeOctaves := s.normalizeOctaves, total := s.total }

/-! ## Basic facts -/

namespace Float64

@[simp]
theorem fin_add_fin (a b : ℚ) : fin a + fin b = fin (a + b) := rfl
@[simp]
theorem fin_mul_fin (a b : ℚ) : fin a * fin b = fin (a * b) := rfl
@[simp]
theorem fin_div_fin (a b : ℚ) :
    fin a / fin b = if b = 0 then signedInf a else fin (a / b) := rfl
@[simp]
theorem nan_add (a : Float64) : nan + a = nan := rfl
@[simp]
theorem add_nan (a : Float64) : a + nan = nan := by cases a <;> rfl
@[simp]
theorem nan_mul (a : Float64) : nan * a = nan := rfl
@[simp]
theorem mul_nan (a : Float64) : a * nan = nan := by cases a <;> rfl
@[simp]
theorem nan_div (a : Float64) : nan / a = nan := rfl
@[simp]
theorem div_nan (a : Float64) : a / nan = nan := by cases a <;> rfl
@[simp]
theorem pinf_add_fin (a : ℚ) : pinf + fin a = pinf := rfl
@[simp]
theorem ninf_add_fin (a : ℚ) : ninf + fin a = ninf := rfl
@[simp]
theorem pinf_div_fin (b : ℚ) : pinf / fin b = if 0 ≤ b then pinf else ninf := rfl
@[simp]
theorem ninf_div_fin (b : ℚ) : ninf / fin b = if 0 ≤ b then ninf else pinf := rfl
@[simp]
theorem signedInf_zero : signedInf 0 = nan := by simp [signedInf]

@[simp]
theorem fin_lt_fin (a b : ℚ) : (fin a < fin b) ↔ a < b := Iff.rfl
@[simp]
theorem fin_lt_pinf (a : ℚ) : (fin a < pinf) ↔ True := Iff.rfl
@[simp]
theorem fin_lt_ninf (a : ℚ) : (fin a < ninf) ↔ False := Iff.rfl
@[simp]
theorem fin_lt_nan (a : ℚ) : (fin a < nan) ↔ False := Iff.rfl
@[simp]
theorem lt_nan (a : Float64) : (a < nan) ↔ False := by cases a <;> exact Iff.rfl
@[simp]
theorem nan_lt (a : Float64) : (nan < a) ↔ False := by cases a <;> exact Iff.rfl
@[simp]
theorem pinf_lt (a : Float64) : (pinf < a) ↔ False := by cases a <;> exact Iff.rfl
@[simp]
theorem lt_ninf (a : Float64) : (a < ninf) ↔ False := by cases a <;> exact Iff.rfl
@[simp]
theorem ninf_lt_fin (a : ℚ) : (ninf < fin a) ↔ True := Iff.rfl

end Float64

/-! ## The colouring ladder -/

/-- The ladder selects the colour of the band that `classify` names. -/
theorem colorTerrain_eq (tm : TerrainMap) (d : Float64) (dc : Context) :
    colorTerrain tm d dc =
      dc.SetRGB255 (bandColor tm (classify d)).r (bandColor tm (classify d)).g
        (bandColor tm (classify d)).b := by
  unfold colorTerrain classify
  split_ifs <;> rfl

/-- First match, for any `float64`: each band is taken exactly when its own
comparison holds and every earlier one fails. -/
theorem classify_first_match (d : Float64) :
    (classify d = .deepWater ↔ d > fin f0_70) ∧
    (classify d = .mediumWater ↔ ¬ d > fin f0_70 ∧ d > fin f0_56) ∧
    (classify d = .shallowWater ↔ ¬ d > fin f0_70 ∧ ¬ d > fin f0_56 ∧ d > fin f0_52) ∧
    (classify d = .sand ↔
      ¬ d > fin f0_70 ∧ ¬ d > fin f0_56 ∧ ¬ d > fin f0_52 ∧ d > fin f0_50) ∧
    (classify d = .lowGrass ↔
      ¬ d > fin f0_70 ∧ ¬ d > fin f0_56 ∧ ¬ d > fin f0_52 ∧ ¬ d > fin f0_50 ∧ d > fin f0_41) ∧
    (classify d = .highGrass ↔
      ¬ d > fin f0_70 ∧ ¬ d > fin f0_56 ∧ ¬ d > fin f0_52 ∧ ¬ d > fin f0_50 ∧ ¬ d > fin f0_41 ∧
        d > fin f0_31) ∧
    (classify d = .rock ↔
      ¬ d > fin f0_70 ∧ ¬ d > fin f0_56 ∧ ¬ d > fin f0_52 ∧ ¬ d > fin f0_50 ∧ ¬ d > fin f0_41 ∧
        ¬ d > fin f0_31 ∧ d > fin f0_23) ∧
    (classify d = .snow ↔
      ¬ d > fin f0_70 ∧ ¬ d > fin f0_56 ∧ ¬ d > fin f0_52 ∧ ¬ d > fin f0_50 ∧ ¬ d > fin f0_41 ∧
        ¬ d > fin f0_31 ∧ ¬ d > fin f0_23) := by
  unfold classify
  split_ifs <;> simp [*]

/-- The bands of the finite depths are the eight intervals. -/
theorem classify_fin_intervals (q : ℚ) :
    (classify (fin q) = .deepWater ↔ f0_70 < q) ∧
    (classify (fin q) = .mediumWater ↔ f0_56 < q ∧ q ≤ f0_70) ∧
    (classify (fin q) = .shallowWater ↔ f0_52 < q ∧ q ≤ f0_56) ∧
    (classify (fin q) = .sand ↔ f0_50 < q ∧ q ≤ f0_52) ∧
    (classify (fin q) = .lowGrass ↔ f0_41 < q ∧ q ≤ f0_50) ∧
    (classify (fin q) = .highGrass ↔ f0_31 < q ∧ q ≤ f0_41) ∧
    (classify (fin q) = .rock ↔ f0_23 < q ∧ q ≤ f0_31) ∧
    (classify (fin q) = .snow ↔ q ≤ f0_23) := by
  have h := classify_first_match (fin q)
  simp only [gt_iff_lt, fin_lt_fin, not_lt] at h
  obtain ⟨h1, h2, h3, h4, h5, h6, h7, h8⟩ := h
  rw [h1, h2, h3, h4, h5, h6, h7, h8]
  clear h1 h2 h3 h4 h5 h6 h7 h8
  norm_num [f0_70, f0_56, f0_52, f0_50, f0_41, f0_31, f0_23]
  refine ⟨?_, ?_, ?_, ?_, ?_, ?_, ?_⟩ <;> constructor <;>
    ((try simp only [and_imp]); intros; split_ands <;> linarith)

/-- Each constant of the ladder is the double nearest to its decimal: a 53-bit
mantissa over a power of two, less than half a unit in the last place away
from the decimal (0.50 is exact). -/
theorem ladder_constants_nearest :
    (f0_70 = 6305039478318694 / 2 ^ 53 ∧ |f0_70 - 70 / 100| < 1 / 2 ^ 54) ∧
    (f0_56 = 5044031582654956 / 2 ^ 53 ∧ |f0_56 - 56 / 100| < 1 / 2 ^ 54) ∧
    (f0_52 = 4683743612465316 / 2 ^ 53 ∧ |f0_52 - 52 / 100| < 1 / 2 ^ 54) ∧
    (f0_50 = 4503599627370496 / 2 ^ 53 ∧ f0_50 = 50 / 100) ∧
    (f0_41 = 7385903388887613 / 2 ^ 54 ∧ |f0_41 - 41 / 100| < 1 / 2 ^ 55) ∧
    (f0_31 = 5584463537939415 / 2 ^ 54 ∧ |f0_31 - 31 / 100| < 1 / 2 ^ 55) ∧
    (f0_23 = 8286623314361713 / 2 ^ 55 ∧ |f0_23 - 23 / 100| < 1 / 2 ^ 56) ∧
    ((2 : ℚ) ^ 52 ≤ 4503599627370496 ∧ (8286623314361713 : ℚ) < 2 ^ 53) ∧
    (f0_70 < 70 / 100 ∧ 56 / 100 < f0_56 ∧ 52 / 100 < f0_52 ∧ f0_41 < 41 / 100 ∧
      f0_31 < 31 / 100 ∧ 23 / 100 < f0_23) := by
  refine ⟨⟨rfl, ?_⟩, ⟨rfl, ?_⟩, ⟨rfl, ?_⟩, ⟨rfl, ?_⟩, ⟨rfl, ?_⟩, ⟨rfl, ?_⟩, ⟨rfl, ?_⟩, ?_, ?_⟩
  · rw [abs_lt]; constructor <;> norm_num [f0_70]
  · rw [abs_lt]; constructor <;> norm_num [f0_56]
  · rw [abs_lt]; constructor <;> norm_num [f0_52]
  · norm_num [f0_50]
  · rw [abs_lt]; constructor <;> norm_num [f0_41]
  · rw [abs_lt]; constructor <;> norm_num [f0_31]
  · rw [abs_lt]; constructor <;> norm_num [f0_23]
  · constructor <;> norm_num
  · refine ⟨?_, ?_, ?_, ?_, ?_, ?_⟩ <;> norm_num [f0_70, f0_56, f0_52, f0_50, f0_41, f0_31, f0_23]

/-- The band of each of the seven thresholds is the lower one. -/
theorem classify_boundaries :
    classify (fin f0_70) = .mediumWater ∧ classify (fin f0_56) = .shallowWater ∧
    classify (fin f0_52) = .sand ∧ classify (fin f0_50) = .lowGrass ∧
    classify (fin f0_41) = .highGrass ∧ classify (fin f0_31) = .rock ∧
    classify (fin f0_23) = .snow := by
  refine ⟨?_, ?_, ?_, ?_, ?_, ?_, ?_⟩ <;> norm_num [classify, f0_70, f0_56, f0_52, f0_50, f0_41, f0_31, f0_23]

/-! ## The pixel loops -/

theorem bandColor_mem (tm : TerrainMap) (b : Band) :
    bandColor tm b = tm.deepWater ∨ bandColor tm b = tm.mediumWater ∨
    bandColor tm b = tm.shallowWater ∨ bandColor tm b = tm.sand ∨
    bandColor tm b = tm.lowGrass ∨ bandColor tm b = tm.highGrass ∨
    bandColor tm b = tm.rock ∨ bandColor tm b = tm.snow := by
  cases b <;> simp [bandColor]

theorem pixelBody_eq (tm : TerrainMap) (noise : Float64 → Float64 → Float64) (x y : Int)
    (dc : Context) :
    pixelBody tm noise x y dc =
      { width := dc.width, height := dc.height, current := pixelColor tm noise x y,
        writes := dc.writes ++ [writeOf tm noise (x, y)] } := by
  simp [pixelBody, colorTerrain_eq, SetPixel, SetRGB255, writeOf, pixelColor]

theorem render_nil (tm : TerrainMap) (noise : Float64 → Float64 → Float64) (dc : Context) :
    render tm noise [] dc = dc := rfl

theorem render_cons (tm : TerrainMap) (noise : Float64 → Float64 → Float64) (p : Int × Int)
    (order : List (Int × Int)) (dc : Context) :
    render tm noise (p :: order) dc = render tm noise order (pixelBody tm noise p.1 p.2 dc) :=
  rfl

theorem render_append (tm : TerrainMap) (noise : Float64 → Float64 → Float64)
    (o₁ o₂ : List (Int × Int)) (dc : Context) :
    render tm noise (o₁ ++ o₂) dc = render tm noise o₂ (render tm noise o₁ dc) := by
  simp [render, List.foldl_append]

/-- What a traversal leaves in the context: the size is kept and one write per
visited pixel is appended, in visiting order. -/
theorem render_spec (tm : TerrainMap) (noise : Float64 → Float64 → Float64)
    (order : List (Int × Int)) (dc : Context) :
    (render tm noise order dc).width = dc.width ∧
    (render tm noise order dc).height = dc.height ∧
    (render tm noise order dc).writes = dc.writes ++ order.map (writeOf tm noise) := by
  induction order generalizing dc with
  | nil => simp [render_nil]
  | cons p rest ih =>
    obtain ⟨hw, hh, hwr⟩ := ih (pixelBody tm noise p.1 p.2 dc)
    rw [render_cons]
    refine ⟨?_, ?_, ?_⟩
    · rw [hw, pixelBody_eq]
    · rw [hh, pixelBody_eq]
    · rw [hwr, pixelBody_eq]; simp

theorem rowLoop_eq_render (tm : TerrainMap) (noise : Float64 → Float64 → Float64) (y : Int)
    (dc : Context) :
    rowLoop tm noise y dc =
      render tm noise ((List.range dc.width.toNat).map (fun (x : Nat) => ((x : Int), y))) dc := by
  simp [rowLoop, render, List.foldl_map, Width]

theorem foldl_rowLoop_eq_render (tm : TerrainMap) (noise : Float64 → Float64 → Float64)
    (ys : List Nat) (dc : Context) :
    ys.foldl (fun dc (y : Nat) => rowLoop tm noise (y : Int) dc) dc =
      render tm noise
        (ys.flatMap (fun (y : Nat) =>
          (List.range dc.width.toNat).map (fun (x : Nat) => ((x : Int), (y : Int)))))
        dc := by
  induction ys generalizing dc with
  | nil => simp [render_nil]
  | cons y rest ih =>
    rw [List.foldl_cons, ih, List.flatMap_cons, render_append, rowLoop_eq_render]
    rw [(render_spec tm noise _ dc).1]

/-- The two loops are the row-major traversal of the grid. -/
theorem gridLoop_eq_render (tm : TerrainMap) (noise : Float64 → Float64 → Float64)
    (dc : Context) :
    gridLoop tm noise dc = render tm noise (rowMajor dc.width.toNat dc.height.toNat) dc := by
  simp [gridLoop, foldl_rowLoop_eq_render, rowMajor, Height]

theorem Generate_dc (tm : TerrainMap) (noise : Float64 → Float64 → Float64) :
    (Generate tm noise).2 = render tm noise (rowMajor 750 500) (NewContext 750 500) := by
  simp [Generate, gridLoop_eq_render, NewContext]

theorem Generate_writes (tm : TerrainMap) (noise : Float64 → Float64 → Float64) :
    (Generate tm noise).2.writes = (rowMajor 750 500).map (writeOf tm noise) := by
  rw [Generate_dc, (render_spec tm noise _ _).2.2]; simp [NewContext]

theorem mem_rowMajor (w h : Nat) (p : Int × Int) :
    p ∈ rowMajor w h ↔ 0 ≤ p.1 ∧ p.1 < w ∧ 0 ≤ p.2 ∧ p.2 < h := by
  obtain ⟨a, b⟩ := p
  simp only [rowMajor, List.mem_flatMap, List.mem_map, List.mem_range, Prod.mk.injEq]
  constructor
  · rintro ⟨y, hy, x, hx, rfl, rfl⟩
    exact ⟨by positivity, by exact_mod_cast hx, by positivity, by exact_mod_cast hy⟩
  · rintro ⟨ha, haw, hb, hbh⟩
    refine ⟨b.toNat, ?_, a.toNat, ?_, ?_, ?_⟩ <;> omega

theorem length_rowMajor (w h : Nat) : (rowMajor w h).length = w * h := by
  have hc : (List.length ∘ fun (y : Nat) =>
      List.map (fun (x : Nat) => ((x : Int), (y : Int))) (List.range w)) = fun _ => w := by
    funext y
    simp
  rw [rowMajor, List.length_flatMap, hc]
  simp [mul_comm]

theorem nodup_rowMajor (w h : Nat) : (rowMajor w h).Nodup := by
  unfold rowMajor
  rw [List.nodup_flatMap]
  refine ⟨fun y _ => ?_, ?_⟩
  · refine (List.nodup_range w).map ?_
    intro a b hab
    simpa using hab
  · refine (List.nodup_range h).pairwise_of_forall_ne ?_
    intro a _ b _ hab
    simp only [Function.onFun, List.disjoint_left, List.mem_map, List.mem_range, not_exists,
      not_and]
    rintro p ⟨x, _, rfl⟩ x' _ h'
    simp only [Prod.mk.injEq, Nat.cast_inj] at h'
    exact hab h'.2.symm

theorem filter_eq_of_nodup {α : Type} [DecidableEq α] (l : List α) (hn : l.Nodup) (a : α) :
    l.filter (fun b => decide (b = a)) = if a ∈ l then [a] else [] := by
  induction l with
  | nil => simp
  | cons b rest ih =>
    rw [List.nodup_cons] at hn
    rw [List.filter_cons, ih hn.2]
    by_cases hba : b = a
    · subst hba
      simp [hn.1]
    · have : ¬ a = b := fun h => hba h.symm
      simp [hba, this]

/-- The writes that a duplicate-free traversal from a fresh context makes at
one pixel: one if the pixel is visited, none otherwise. -/
theorem writesAt_render (tm : TerrainMap) (noise : Float64 → Float64 → Float64)
    (order : List (Int × Int)) (hn : order.Nodup) (w h : Int) (x y : Int) :
    (render tm noise order (NewContext w h)).writesAt x y =
      if (x, y) ∈ order then [writeOf tm noise (x, y)] else [] := by
  rw [writesAt, (render_spec tm noise _ _).2.2]
  simp only [NewContext, List.nil_append, List.filter_map]
  have hp : ((fun w : PixelWrite => decide (w.x = x ∧ w.y = y)) ∘ writeOf tm noise) =
      fun p => decide (p = (x, y)) := by
    funext p
    obtain ⟨a, b⟩ := p
    simp [writeOf]
  rw [hp, filter_eq_of_nodup _ hn]
  split_ifs <;> simp

/-! ## The octave loop -/

theorem octaves_of_nonpos (tm : TerrainMap) (noise : Float64 → Float64 → Float64) (x y : Int)
    (h : tm.octaves ≤ 0) :
    octaves tm noise x y = octaveInit := by
  simp [octaves, Int.toNat_eq_zero.2 h, octaveLoop]

theorem depth_of_nonpos (tm : TerrainMap) (noise : Float64 → Float64 → Float64) (x y : Int)
    (h : tm.octaves ≤ 0) : depth tm noise x y = nan := by
  norm_num [depth, octaves_of_nonpos tm noise x y h, octaveInit]

/-- One pass of the octave loop keeps `|total| ≤ normalizeOctaves` when the
amplitude is not negative and the sample lies in `[-1, 1]`. -/
theorem octaveBody_bound (tm : TerrainMap) (noise : Float64 → Float64 → Float64)
    (sx sy : Float64) (s : OctaveState) (a n t : ℚ)
    (hnoise : ∀ u v, ∃ q : ℚ, noise u v = fin q ∧ -1 ≤ q ∧ q ≤ 1)
    (ha : s.amplitude = fin a) (ha0 : 0 ≤ a) (hn : s.normalizeOctaves = fin n)
    (ht : s.total = fin t) (htn : |t| ≤ n) :
    ∃ t' : ℚ, (octaveBody tm noise sx sy s).normalizeOctaves = fin (n + a) ∧
      (octaveBody tm noise sx sy s).total = fin t' ∧ |t'| ≤ n + a ∧
      (octaveBody tm noise sx sy s).amplitude = fin a * tm.persistance := by
  obtain ⟨q, hq, hq1, hq2⟩ := hnoise (sx * s.frequency) (sy * s.frequency)
  refine ⟨t + q * a, ?_, ?_, ?_, ?_⟩
  · simp [octaveBody, hn, ha]
  · simp [octaveBody, ht, ha, hq]
  · rw [abs_le] at htn ⊢
    constructor <;> nlinarith [mul_nonneg (sub_nonneg.2 hq2) ha0,
      mul_nonneg (by linarith : (0 : ℚ) ≤ q + 1) ha0]
  · simp [octaveBody, ha]

/-- With a persistance that is not negative, any number of further passes
keeps `|total| ≤ normalizeOctaves` and `1 ≤ normalizeOctaves`. -/
theorem octaveLoop_bound (tm : TerrainMap) (noise : Float64 → Float64 → Float64)
    (sx sy : Float64) (p : ℚ) (hp : tm.persistance = fin p) (hp0 : 0 ≤ p)
    (hnoise : ∀ u v, ∃ q : ℚ, noise u v = fin q ∧ -1 ≤ q ∧ q ≤ 1) (k : Nat) :
    ∀ (s : OctaveState) (a n t : ℚ), s.amplitude = fin a → 0 ≤ a →
      s.normalizeOctaves = fin n → s.total = fin t → |t| ≤ n → 1 ≤ n →
      ∃ n' t' : ℚ, (octaveLoop tm noise sx sy k s).normalizeOctaves = fin n' ∧
        (octaveLoop tm noise sx sy k s).total = fin t' ∧ |t'| ≤ n' ∧ 1 ≤ n' := by
  induction k with
  | zero =>
    intro s a n t _ _ hn ht htn hn1
    exact ⟨n, t, hn, ht, htn, hn1⟩
  | succ k ih =>
    intro s a n t ha ha0 hn ht htn hn1
    obtain ⟨t', hn', ht', htn', ha'⟩ := octaveBody_bound tm noise sx sy s a n t hnoise ha ha0 hn ht htn
    rw [hp, fin_mul_fin] at ha'
    exact ih _ (a * p) (n + a) t' ha' (mul_nonneg ha0 hp0) hn' ht' htn' (by linarith)

/-- The state after the first pass of the octave loop. -/
theorem octaveBody_first (tm : TerrainMap) (noise : Float64 → Float64 → Float64)
    (sx sy : Float64) (hnoise : ∀ u v, ∃ q : ℚ, noise u v = fin q ∧ -1 ≤ q ∧ q ≤ 1) :
    ∃ t : ℚ,
      (octaveBody tm noise sx sy octaveInit).normalizeOctaves = fin 1 ∧
      (octaveBody tm noise sx sy octaveInit).total = fin t ∧ |t| ≤ 1 ∧
      (octaveBody tm noise sx sy octaveInit).amplitude = fin 1 * tm.persistance := by
  obtain ⟨t, h1, h2, h3, h4⟩ := octaveBody_bound tm noise sx sy octaveInit
    1 0 0 hnoise (by norm_num [octaveInit]) (by norm_num) (by norm_num [octaveInit])
    (by norm_num [octaveInit]) (by norm_num)
  refine ⟨t, ?_, h2, ?_, h4⟩
  · rw [h1]; norm_num
  · simpa using h3

/-- The loop ends with `|total| ≤ normalizeOctaves` and `1 ≤ normalizeOctaves`
when it makes one pass, or at least one pass with a persistance that is not
negative. -/
theorem octaves_bound (tm : TerrainMap) (noise : Float64 → Float64 → Float64) (x y : Int)
    (hoct : 1 ≤ tm.octaves)
    (hp : tm.octaves = 1 ∨ ∃ p : ℚ, tm.persistance = fin p ∧ 0 ≤ p)
    (hnoise : ∀ u v, ∃ q : ℚ, noise u v = fin q ∧ -1 ≤ q ∧ q ≤ 1) :
    ∃ n t : ℚ, (octaves tm noise x y).normalizeOctaves = fin n ∧
      (octaves tm noise x y).total = fin t ∧ |t| ≤ n ∧ 1 ≤ n := by
  obtain ⟨k, hk⟩ : ∃ k : Nat, tm.octaves.toNat = k + 1 := ⟨tm.octaves.toNat - 1, by omega⟩
  obtain ⟨t, h1, h2, h3, h4⟩ :=
    octaveBody_first tm noise (ofInt x / tm.scale) (ofInt y / tm.scale) hnoise
  simp only [octaves, hk, octaveLoop]
  rcases hp with h | ⟨p, hp, hp0⟩
  · have hk0 : k = 0 := by omega
    subst hk0
    exact ⟨1, t, h1, h2, h3, le_refl 1⟩
  · rw [hp, fin_mul_fin] at h4
    exact octaveLoop_bound tm noise _ _ p hp hp0 hnoise k _ (1 * p) 1 t h4 (by linarith) h1 h2 h3
      (le_refl 1)

/-- A depth computed from `|total| ≤ normalizeOctaves`, `1 ≤ normalizeOctaves`
lies in `[0, 1]`. -/
theorem depth_bound_of (n t : ℚ) (htn : |t| ≤ n) (hn : 1 ≤ n) :
    ∃ d : ℚ, (fin t / fin n + fin 1) / fin 2 = fin d ∧ 0 ≤ d ∧ d ≤ 1 := by
  have hn0 : 0 < n := by linarith
  have hne : n ≠ 0 := ne_of_gt hn0
  rw [abs_le] at htn
  refine ⟨(t / n + 1) / 2, by simp [hne], ?_, ?_⟩
  · have : -1 ≤ t / n := by rw [le_div_iff₀ hn0]; linarith
    linarith
  · have : t / n ≤ 1 := by rw [div_le_one hn0]; linarith
    linarith

/-! ## The grid that `Generate` produces -/

theorem writesAt_Generate (tm : TerrainMap) (noise : Float64 → Float64 → Float64) (x y : Int)
    (hx0 : 0 ≤ x) (hx : x < 750) (hy0 : 0 ≤ y) (hy : y < 500) :
    (Generate tm noise).2.writesAt x y = [writeOf tm noise (x, y)] := by
  rw [Generate_dc, writesAt_render tm noise _ (nodup_rowMajor 750 500)]
  have hmem : (x, y) ∈ rowMajor 750 500 :=
    (mem_rowMajor 750 500 (x, y)).2 ⟨hx0, by exact_mod_cast hx, hy0, by exact_mod_cast hy⟩
  simp [hmem]

theorem pixelAt_Generate (tm : TerrainMap) (noise : Float64 → Float64 → Float64) (x y : Int)
    (hx0 : 0 ≤ x) (hx : x < 750) (hy0 : 0 ≤ y) (hy : y < 500) :
    (Generate tm noise).2.pixelAt x y = some (pixelColor tm noise x y) := by
  simp [pixelAt, writesAt_Generate tm noise x y hx0 hx hy0 hy, writeOf]

theorem mem_Generate_writes (tm : TerrainMap) (noise : Float64 → Float64 → Float64)
    (w : PixelWrite) (hw : w ∈ (Generate tm noise).2.writes) :
    0 ≤ w.x ∧ w.x < 750 ∧ 0 ≤ w.y ∧ w.y < 500 ∧ w.c = pixelColor tm noise w.x w.y := by
  rw [Generate_writes, List.mem_map] at hw
  obtain ⟨p, hp, rfl⟩ := hw
  have h := (mem_rowMajor 750 500 p).1 hp
  exact ⟨h.1, by exact_mod_cast h.2.1, h.2.2.1, by exact_mod_cast h.2.2.2, rfl⟩

theorem length_Generate_writes (tm : TerrainMap) (noise : Float64 → Float64 → Float64) :
    (Generate tm noise).2.writes.length = 375000 := by
  rw [Generate_writes, List.length_map, length_rowMajor]

theorem Generate_size (tm : TerrainMap) (noise : Float64 → Float64 → Float64) :
    (Generate tm noise).2.Width = 750 ∧ (Generate tm noise).2.Height = 500 := by
  obtain ⟨hw, hh, _⟩ := render_spec tm noise (rowMajor 750 500) (NewContext 750 500)
  rw [Generate_dc, Width, Height, hw, hh]
  exact ⟨rfl, rfl⟩

theorem octaves_NewDefault_zeroNoise (x y : Int) :
    (octaves NewDefault zeroNoise x y).total = fin 0 ∧
    (octaves NewDefault zeroNoise x y).normalizeOctaves = fin 1.9375 := by
  constructor <;>
    norm_num [octaves, NewDefault, octaveLoop, octaveBody, octaveInit, zeroNoise]

theorem depth_NewDefault_zeroNoise (x y : Int) : depth NewDefault zeroNoise x y = fin 0.5 := by
  obtain ⟨h1, h2⟩ := octaves_NewDefault_zeroNoise x y
  rw [depth, h1, h2]
  norm_num

theorem pixelColor_NewDefault_zeroNoise (x y : Int) :
    pixelColor NewDefault zeroNoise x y = { r := 23, g := 140, b := 22 } := by
  rw [pixelColor, depth_NewDefault_zeroNoise]
  norm_num [classify, f0_70, f0_56, f0_52, f0_50, f0_41, f0_31, f0_23, bandColor, NewDefault]

theorem bandColor_setColor_self (k : Band) (tm : TerrainMap) (r g b : Int) :
    bandColor (setColor k tm r g b) k = { r := r, g := g, b := b } := by
  cases k <;> rfl

theorem bandColor_setColor_of_ne (k k' : Band) (tm : TerrainMap) (r g b : Int) (h : k' ≠ k) :
    bandColor (setColor k tm r g b) k' = bandColor tm k' := by
  cases k <;> cases k' <;> first | rfl | exact absurd rfl h

theorem shape_setColor (k : Band) (tm : TerrainMap) (r g b : Int) :
    (setColor k tm r g b).scale = tm.scale ∧
    (setColor k tm r g b).lacunarity = tm.lacunarity ∧
    (setColor k tm r g b).persistance = tm.persistance ∧
    (setColor k tm r g b).octaves = tm.octaves := by
  cases k <;> exact ⟨rfl, rfl, rfl, rfl⟩

/-! ## The properties stated by the specification -/

/-- C1: for every depth value the colouring ladder of `Generate` takes exactly
one of the eight bands and selects its colour; the band is the first one, in
the order deepWater (> 0.70), mediumWater (> 0.56), shallowWater (> 0.52),
sand (> 0.50), lowGrass (> 0.41), highGrass (> 0.31), rock (> 0.23), whose
strict comparison holds, and snow if none holds.  The thresholds are the
`float64` constants that the source compares with (`f0_70` for `0.70`, ...),
each the double nearest to its decimal.  For the finite depths the bands are
the intervals (0.70, inf), (0.56, 0.70], (0.52, 0.56], (0.50, 0.52],
(0.41, 0.50], (0.31, 0.41], (0.23, 0.31], (-inf, 0.23] between those
constants, and a depth equal to one of the seven constants belongs to the
lower band: 0.70 gives mediumWater, 0.56 shallowWater, 0.52 sand, 0.50
lowGrass, 0.41 highGrass, 0.31 rock, 0.23 snow. -/
theorem classify_selects_first_band (tm : TerrainMap) (dc : Context) (d : Float64) (q : ℚ) :
    (∃! k : Band, classify d = k) ∧
    colorTerrain tm d dc =
      dc.SetRGB255 (bandColor tm (classify d)).r (bandColor tm (classify d)).g
        (bandColor tm (classify d)).b ∧
    ((classify d = .deepWater ↔ d > fin f0_70) ∧
     (classify d = .mediumWater ↔ ¬ d > fin f0_70 ∧ d > fin f0_56) ∧
     (classify d = .shallowWater ↔ ¬ d > fin f0_70 ∧ ¬ d > fin f0_56 ∧ d > fin f0_52) ∧
     (classify d = .sand ↔
       ¬ d > fin f0_70 ∧ ¬ d > fin f0_56 ∧ ¬ d > fin f0_52 ∧ d > fin f0_50) ∧
     (classify d = .lowGrass ↔
       ¬ d > fin f0_70 ∧ ¬ d > fin f0_56 ∧ ¬ d > fin f0_52 ∧ ¬ d > fin f0_50 ∧ d > fin f0_41) ∧
     (classify d = .highGrass ↔
       ¬ d > fin f0_70 ∧ ¬ d > fin f0_56 ∧ ¬ d > fin f0_52 ∧ ¬ d > fin f0_50 ∧ ¬ d > fin f0_41 ∧
         d > fin f0_31) ∧
     (classify d = .rock ↔
       ¬ d > fin f0_70 ∧ ¬ d > fin f0_56 ∧ ¬ d > fin f0_52 ∧ ¬ d > fin f0_50 ∧ ¬ d > fin f0_41 ∧
         ¬ d > fin f0_31 ∧ d > fin f0_23) ∧
     (classify d = .snow ↔
       ¬ d > fin f0_70 ∧ ¬ d > fin f0_56 ∧ ¬ d > fin f0_52 ∧ ¬ d > fin f0_50 ∧ ¬ d > fin f0_41 ∧
         ¬ d > fin f0_31 ∧ ¬ d > fin f0_23)) ∧
    ((classify (fin q) = .deepWater ↔ f0_70 < q) ∧
     (classify (fin q) = .mediumWater ↔ f0_56 < q ∧ q ≤ f0_70) ∧
     (classify (fin q) = .shallowWater ↔ f0_52 < q ∧ q ≤ f0_56) ∧
     (classify (fin q) = .sand ↔ f0_50 < q ∧ q ≤ f0_52) ∧
     (classify (fin q) = .lowGrass ↔ f0_41 < q ∧ q ≤ f0_50) ∧
     (classify (fin q) = .highGrass ↔ f0_31 < q ∧ q ≤ f0_41) ∧
     (classify (fin q) = .rock ↔ f0_23 < q ∧ q ≤ f0_31) ∧
     (classify (fin q) = .snow ↔ q ≤ f0_23)) ∧
    (classify (fin f0_70) = .mediumWater ∧ classify (fin f0_56) = .shallowWater ∧
     classify (fin f0_52) = .sand ∧ classify (fin f0_50) = .lowGrass ∧
     classify (fin f0_41) = .highGrass ∧ classify (fin f0_31) = .rock ∧
     classify (fin f0_23) = .snow) ∧
    (|f0_70 - 70 / 100| < 1 / 2 ^ 54 ∧ |f0_56 - 56 / 100| < 1 / 2 ^ 54 ∧
     |f0_52 - 52 / 100| < 1 / 2 ^ 54 ∧ f0_50 = 50 / 100 ∧
     |f0_41 - 41 / 100| < 1 / 2 ^ 55 ∧ |f0_31 - 31 / 100| < 1 / 2 ^ 55 ∧
     |f0_23 - 23 / 100| < 1 / 2 ^ 56) :=
  ⟨⟨classify d, rfl, fun _ hk => hk.symm⟩, colorTerrain_eq tm d dc, classify_first_match d,
    classify_fin_intervals q, classify_boundaries,
    ladder_constants_nearest.1.2, ladder_constants_nearest.2.1.2,
    ladder_constants_nearest.2.2.1.2, ladder_constants_nearest.2.2.2.1.2,
    ladder_constants_nearest.2.2.2.2.1.2, ladder_constants_nearest.2.2.2.2.2.1.2,
    ladder_constants_nearest.2.2.2.2.2.2.1.2⟩

/-- C2, as stated, fails for a negative persistance.  With persistance `-0.5`,
two octaves, scale `125`, lacunarity `2` and a noise function with values in
`{-1, 1}`, pixel `(125, 0)` is sampled at `(1, 0)` and `(2, 0)`: the noise
values are `1` and `-1`, so `total = 1 + (-1) * (-0.5) = 1.5` while the
normalizer is `1 + (-0.5) = 0.5 > 0`, and the depth is `(1.5 / 0.5 + 1) / 2 = 2`. -/
theorem depth_above_one_of_negative_persistance :
    1 ≤ negativePersistance.octaves ∧
    negativePersistance.persistance = fin (-0.5) ∧
    (∀ u v, ∃ q : ℚ, ridgeNoise u v = fin q ∧ -1 ≤ q ∧ q ≤ 1) ∧
    (octaves negativePersistance ridgeNoise 125 0).normalizeOctaves = fin 0.5 ∧
    (octaves negativePersistance ridgeNoise 125 0).normalizeOctaves > fin 0 ∧
    (octaves negativePersistance ridgeNoise 125 0).total = fin 1.5 ∧
    depth negativePersistance ridgeNoise 125 0 = fin 2 ∧
    ¬ ∃ d : ℚ, depth negativePersistance ridgeNoise 125 0 = fin d ∧ 0 ≤ d ∧ d ≤ 1 := by
  have hn : (octaves negativePersistance ridgeNoise 125 0).normalizeOctaves = fin 0.5 := by
    norm_num [octaves, negativePersistance, SetGenerationModifiers, NewDefault, octaveLoop,
      octaveBody, octaveInit, ridgeNoise, ofInt]
  have ht : (octaves negativePersistance ridgeNoise 125 0).total = fin 1.5 := by
    norm_num [octaves, negativePersistance, SetGenerationModifiers, NewDefault, octaveLoop,
      octaveBody, octaveInit, ridgeNoise, ofInt]
  have hd : depth negativePersistance ridgeNoise 125 0 = fin 2 := by
    rw [depth, hn, ht]; norm_num
  refine ⟨by decide, rfl, ?_, hn, ?_, ht, hd, ?_⟩
  · intro u v
    by_cases h : u = fin 1
    · exact ⟨1, by simp [ridgeNoise, h], by norm_num, by norm_num⟩
    · exact ⟨-1, by simp [ridgeNoise, h], by norm_num, by norm_num⟩
  · rw [hn]; norm_num
  · rintro ⟨d, h, _, h1⟩
    rw [hd] at h
    injection h with h
    linarith

/-- C2, amended: for every configuration with octaves >= 1 whose persistance is
a number >= 0, or whose octave count is exactly 1 (any scale and lacunarity),
every pixel and every noise function whose samples all lie in [-1, 1], if the
accumulated normalizer is > 0 then, in exact arithmetic, the magnitude of total
is at most the normalizer and the depth (total / normalizer + 1) / 2 lies in
[0, 1]. -/
theorem depth_in_unit_interval (tm : TerrainMap) (noise : Float64 → Float64 → Float64)
    (x y : Int) (hoct : 1 ≤ tm.octaves)
    (hp : tm.octaves = 1 ∨ ∃ p : ℚ, tm.persistance = fin p ∧ 0 ≤ p)
    (hnoise : ∀ u v, ∃ q : ℚ, noise u v = fin q ∧ -1 ≤ q ∧ q ≤ 1)
    (_hpos : (octaves tm noise x y).normalizeOctaves > fin 0) :
    ∃ n t d : ℚ, (octaves tm noise x y).normalizeOctaves = fin n ∧
      (octaves tm noise x y).total = fin t ∧ |t| ≤ n ∧
      depth tm noise x y = fin d ∧ d = (t / n + 1) / 2 ∧ 0 ≤ d ∧ d ≤ 1 := by
  obtain ⟨n, t, hn, ht, htn, hn1⟩ := octaves_bound tm noise x y hoct hp hnoise
  have hne : n ≠ 0 := by linarith
  obtain ⟨d, hd, hd0, hd1⟩ := depth_bound_of n t htn hn1
  have hd' : d = (t / n + 1) / 2 := by
    have h := hd
    simp only [fin_div_fin, hne, if_false, fin_add_fin] at h
    norm_num at h
    exact h.symm
  exact ⟨n, t, d, hn, ht, htn, by rw [depth, hn, ht, hd], hd', hd0, hd1⟩

/-- The amended C2 at the default configuration and the zero noise, pixel `(0, 0)`. -/
theorem depth_in_unit_interval_witness :
    1 ≤ NewDefault.octaves ∧
    ∃ n t d : ℚ, (octaves NewDefault zeroNoise 0 0).normalizeOctaves = fin n ∧
      (octaves NewDefault zeroNoise 0 0).total = fin t ∧ |t| ≤ n ∧
      depth NewDefault zeroNoise 0 0 = fin d ∧ d = (t / n + 1) / 2 ∧ 0 ≤ d ∧ d ≤ 1 :=
  ⟨by decide,
    depth_in_unit_interval NewDefault zeroNoise 0 0 (by decide)
      (Or.inr ⟨0.5, rfl, by norm_num⟩)
      (fun _ _ => ⟨0, by norm_num [zeroNoise], by norm_num, by norm_num⟩)
      (by rw [(octaves_NewDefault_zeroNoise 0 0).2]; norm_num)⟩

/-- C3: with the configuration of `NewDefault` and a noise source that returns
0.0 for every sample, `Generate` computes total = 0 and depth = 0.5 at every
pixel; 0.5 > 0.50 is false and 0.5 > 0.41 is true, so the band is lowGrass and
every one of the 750 * 500 = 375,000 pixels receives the colour (23, 140, 22). -/
theorem NewDefault_zeroNoise_lowGrass (x y : Int) (hx0 : 0 ≤ x) (hx : x < 750)
    (hy0 : 0 ≤ y) (hy : y < 500) :
    (octaves NewDefault zeroNoise x y).total = fin 0 ∧
    depth NewDefault zeroNoise x y = fin 0.5 ∧
    ¬ (fin 0.5 > fin f0_50) ∧ fin 0.5 > fin f0_41 ∧
    classify (depth NewDefault zeroNoise x y) = .lowGrass ∧
    (Generate NewDefault zeroNoise).2.pixelAt x y = some { r := 23, g := 140, b := 22 } ∧
    (Generate NewDefault zeroNoise).2.writes.length = 375000 ∧
    (∀ w ∈ (Generate NewDefault zeroNoise).2.writes, w.c = { r := 23, g := 140, b := 22 }) := by
  refine ⟨(octaves_NewDefault_zeroNoise x y).1, depth_NewDefault_zeroNoise x y,
    by norm_num [f0_50], by norm_num [f0_41], ?_, ?_, length_Generate_writes _ _, ?_⟩
  · rw [depth_NewDefault_zeroNoise]; norm_num [classify, f0_70, f0_56, f0_52, f0_50, f0_41, f0_31, f0_23]
  · rw [pixelAt_Generate _ _ x y hx0 hx hy0 hy, pixelColor_NewDefault_zeroNoise]
  · intro w hw
    rw [(mem_Generate_writes _ _ w hw).2.2.2.2, pixelColor_NewDefault_zeroNoise]

/-- C3 at the last pixel of the grid, `(749, 499)`. -/
theorem NewDefault_zeroNoise_lowGrass_witness :
    (0 : Int) ≤ 749 ∧ (749 : Int) < 750 ∧ (0 : Int) ≤ 499 ∧ (499 : Int) < 500 ∧
    (Generate NewDefault zeroNoise).2.pixelAt 749 499 = some { r := 23, g := 140, b := 22 } :=
  ⟨by decide, by decide, by decide, by decide,
    (NewDefault_zeroNoise_lowGrass 749 499 (by decide) (by decide) (by decide)
      (by decide)).2.2.2.2.2.1⟩

/-- C4: for every configuration and every noise function the grid that
`Generate` produces has 750 columns and 500 rows, 375,000 entries; a pixel
`(x, y)` with 0 <= x < 750 and 0 <= y < 500 is written exactly once, no write
falls outside those bounds, and the colour written is one of the eight band
colours held in the configuration. -/
theorem Generate_grid_complete (tm : TerrainMap) (noise : Float64 → Float64 → Float64)
    (x y : Int) (hx0 : 0 ≤ x) (hx : x < 750) (hy0 : 0 ≤ y) (hy : y < 500) :
    (Generate tm noise).2.Width = 750 ∧ (Generate tm noise).2.Height = 500 ∧
    (Generate tm noise).2.writes.length = 750 * 500 ∧
    ((Generate tm noise).2.writesAt x y).length = 1 ∧
    (∃ c : color, (Generate tm noise).2.pixelAt x y = some c ∧
      (c = tm.deepWater ∨ c = tm.mediumWater ∨ c = tm.shallowWater ∨ c = tm.sand ∨
        c = tm.lowGrass ∨ c = tm.highGrass ∨ c = tm.rock ∨ c = tm.snow)) ∧
    (∀ w ∈ (Generate tm noise).2.writes,
      0 ≤ w.x ∧ w.x < 750 ∧ 0 ≤ w.y ∧ w.y < 500 ∧
      (w.c = tm.deepWater ∨ w.c = tm.mediumWater ∨ w.c = tm.shallowWater ∨ w.c = tm.sand ∨
        w.c = tm.lowGrass ∨ w.c = tm.highGrass ∨ w.c = tm.rock ∨ w.c = tm.snow)) := by
  refine ⟨(Generate_size tm noise).1, (Generate_size tm noise).2, length_Generate_writes tm noise,
    ?_, ?_, ?_⟩
  · rw [writesAt_Generate tm noise x y hx0 hx hy0 hy]; rfl
  · exact ⟨pixelColor tm noise x y, pixelAt_Generate tm noise x y hx0 hx hy0 hy,
      bandColor_mem tm _⟩
  · intro w hw
    obtain ⟨h1, h2, h3, h4, h5⟩ := mem_Generate_writes tm noise w hw
    refine ⟨h1, h2, h3, h4, ?_⟩
    rw [h5]
    exact bandColor_mem tm _

/-- C4 at the first pixel, for the default configuration and the ridge noise. -/
theorem Generate_grid_complete_witness :
    (0 : Int) ≤ 0 ∧ (0 : Int) < 750 ∧ (0 : Int) < 500 ∧
    (Generate NewDefault ridgeNoise).2.writes.length = 750 * 500 ∧
    ((Generate NewDefault ridgeNoise).2.writesAt 0 0).length = 1 :=
  ⟨by decide, by decide, by decide,
    (Generate_grid_complete NewDefault ridgeNoise 0 0 (by decide) (by decide) (by decide)
      (by decide)).2.2.1,
    (Generate_grid_complete NewDefault ridgeNoise 0 0 (by decide) (by decide) (by decide)
      (by decide)).2.2.2.1⟩

/-- C5: `NewDefault` returns a configuration with scale = 125.0, lacunarity = 2.0,
persistance = 0.5, octaves = 5 and the palette deepWater = (8,50,201),
mediumWater = (8,66,201), shallowWater = (8,114,201), sand = (255,228,110),
lowGrass = (23,140,22), highGrass = (23,120,22), rock = (55,63,66),
snow = (230,232,237). -/
theorem NewDefault_values :
    NewDefault.scale = fin 125.0 ∧ NewDefault.lacunarity = fin 2.0 ∧
    NewDefault.persistance = fin 0.5 ∧ NewDefault.octaves = 5 ∧
    NewDefault.deepWater = { r := 8, g := 50, b := 201 } ∧
    NewDefault.mediumWater = { r := 8, g := 66, b := 201 } ∧
    NewDefault.shallowWater = { r := 8, g := 114, b := 201 } ∧
    NewDefault.sand = { r := 255, g := 228, b := 110 } ∧
    NewDefault.lowGrass = { r := 23, g := 140, b := 22 } ∧
    NewDefault.highGrass = { r := 23, g := 120, b := 22 } ∧
    NewDefault.rock = { r := 55, g := 63, b := 66 } ∧
    NewDefault.snow = { r := 230, g := 232, b := 237 } :=
  ⟨rfl, rfl, rfl, rfl, rfl, rfl, rfl, rfl, rfl, rfl, rfl, rfl⟩

/-- C6: for each of the eight colour setters, every configuration and every
r, g, b, after the call the colour of every band other than the setter's own
and the four shape parameters are what they were before the call; in
particular `SetSandColor(1, 2, 3)` leaves the seven other colours and the
shape parameters as they were. -/
theorem setColor_frame (k k' : Band) (tm : TerrainMap) (r g b : Int) (h : k' ≠ k) :
    bandColor (setColor k tm r g b) k' = bandColor tm k' ∧
    (setColor k tm r g b).scale = tm.scale ∧
    (setColor k tm r g b).lacunarity = tm.lacunarity ∧
    (setColor k tm r g b).persistance = tm.persistance ∧
    (setColor k tm r g b).octaves = tm.octaves ∧
    ((SetSandColor tm 1 2 3).deepWater = tm.deepWater ∧
     (SetSandColor tm 1 2 3).mediumWater = tm.mediumWater ∧
     (SetSandColor tm 1 2 3).shallowWater = tm.shallowWater ∧
     (SetSandColor tm 1 2 3).lowGrass = tm.lowGrass ∧
     (SetSandColor tm 1 2 3).highGrass = tm.highGrass ∧
     (SetSandColor tm 1 2 3).rock = tm.rock ∧
     (SetSandColor tm 1 2 3).snow = tm.snow ∧
     (SetSandColor tm 1 2 3).scale = tm.scale ∧
     (SetSandColor tm 1 2 3).lacunarity = tm.lacunarity ∧
     (SetSandColor tm 1 2 3).persistance = tm.persistance ∧
     (SetSandColor tm 1 2 3).octaves = tm.octaves) :=
  ⟨bandColor_setColor_of_ne k k' tm r g b h, (shape_setColor k tm r g b).1,
    (shape_setColor k tm r g b).2.1, (shape_setColor k tm r g b).2.2.1,
    (shape_setColor k tm r g b).2.2.2, rfl, rfl, rfl, rfl, rfl, rfl, rfl, rfl, rfl, rfl, rfl⟩

/-- C6 for `SetRockColor(300, -1, 0)` on the default configuration: snow is kept. -/
theorem setColor_frame_witness :
    Band.snow ≠ Band.rock ∧
    (SetRockColor NewDefault 300 (-1) 0).snow = { r := 230, g := 232, b := 237 } :=
  ⟨by decide, (setColor_frame .rock .snow NewDefault 300 (-1) 0 (by decide)).1⟩

/-- C7: for each of the eight colour setters and all integers r, g, b
(including values outside [0, 255]: no clamping, wrapping or rejection), after
SetXColor(r, g, b) the colour of the band named by the setter is exactly
(r, g, b): the red channel is r, the green channel is g and the blue channel
is b; the setter overwrites the colour of no other band. -/
theorem setColor_sets_named_band (k k' : Band) (tm : TerrainMap) (r g b : Int) (h : k' ≠ k) :
    bandColor (setColor k tm r g b) k = { r := r, g := g, b := b } ∧
    (bandColor (setColor k tm r g b) k).r = r ∧
    (bandColor (setColor k tm r g b) k).g = g ∧
    (bandColor (setColor k tm r g b) k).b = b ∧
    bandColor (setColor k tm r g b) k' = bandColor tm k' ∧
    ((SetDeepWaterColor tm r g b).deepWater = { r := r, g := g, b := b } ∧
     (SetMediumWaterColor tm r g b).mediumWater = { r := r, g := g, b := b } ∧
     (SetShallowWaterColor tm r g b).shallowWater = { r := r, g := g, b := b } ∧
     (SetSandColor tm r g b).sand = { r := r, g := g, b := b } ∧
     (SetLowGrassColor tm r g b).lowGrass = { r := r, g := g, b := b } ∧
     (SetHighGrassColor tm r g b).highGrass = { r := r, g := g, b := b } ∧
     (SetRockColor tm r g b).rock = { r := r, g := g, b := b } ∧
     (SetSnowColor tm r g b).snow = { r := r, g := g, b := b }) := by
  have hk := bandColor_setColor_self k tm r g b
  refine ⟨hk, ?_, ?_, ?_, bandColor_setColor_of_ne k k' tm r g b h,
    rfl, rfl, rfl, rfl, rfl, rfl, rfl, rfl⟩
  · rw [hk]
  · rw [hk]
  · rw [hk]

/-- C7 for `SetSnowColor(-7, 256, 1000)` on the default configuration: snow is
set to the out-of-range channels as given and rock is kept. -/
theorem setColor_sets_named_band_witness :
    Band.rock ≠ Band.snow ∧
    (SetSnowColor NewDefault (-7) 256 1000).snow = { r := -7, g := 256, b := 1000 } ∧
    (SetSnowColor NewDefault (-7) 256 1000).rock = { r := 55, g := 63, b := 66 } :=
  ⟨by decide, (setColor_sets_named_band .snow .rock NewDefault (-7) 256 1000 (by decide)).1,
    (setColor_sets_named_band .snow .rock NewDefault (-7) 256 1000 (by decide)).2.2.2.2.1⟩

/-- C8: for every configuration and all arguments, `SetGenerationModifiers`
returns normally, leaves the configuration with exactly the four shape
parameters given, and leaves the eight band colours as they were. -/
theorem SetGenerationModifiers_spec (tm : TerrainMap) (scale lacunarity persistance : Float64)
    (octaves : Int) :
    (SetGenerationModifiers tm scale lacunarity persistance octaves).scale = scale ∧
    (SetGenerationModifiers tm scale lacunarity persistance octaves).lacunarity = lacunarity ∧
    (SetGenerationModifiers tm scale lacunarity persistance octaves).persistance = persistance ∧
    (SetGenerationModifiers tm scale lacunarity persistance octaves).octaves = octaves ∧
    (SetGenerationModifiers tm scale lacunarity persistance octaves).deepWater = tm.deepWater ∧
    (SetGenerationModifiers tm scale lacunarity persistance octaves).mediumWater =
      tm.mediumWater ∧
    (SetGenerationModifiers tm scale lacunarity persistance octaves).shallowWater =
      tm.shallowWater ∧
    (SetGenerationModifiers tm scale lacunarity persistance octaves).sand = tm.sand ∧
    (SetGenerationModifiers tm scale lacunarity persistance octaves).lowGrass = tm.lowGrass ∧
    (SetGenerationModifiers tm scale lacunarity persistance octaves).highGrass = tm.highGrass ∧
    (SetGenerationModifiers tm scale lacunarity persistance octaves).rock = tm.rock ∧
    (SetGenerationModifiers tm scale lacunarity persistance octaves).snow = tm.snow :=
  ⟨rfl, rfl, rfl, rfl, rfl, rfl, rfl, rfl, rfl, rfl, rfl, rfl⟩

/-- C9: `Generate` is determined by its configuration and its noise function:
two runs with the same configuration and noise functions that agree on every
sample give the same grid; the colour of an in-range pixel `(x, y)` is
`pixelColor tm noise x y`, a function of `x`, `y`, the configuration and the
noise function alone, and it is the same when the pixels are visited in any
other order. -/
theorem Generate_deterministic (tm : TerrainMap) (noise₁ noise₂ : Float64 → Float64 → Float64)
    (order : List (Int × Int)) (x y : Int)
    (hnoise : ∀ u v, noise₁ u v = noise₂ u v) (horder : order.Perm (rowMajor 750 500))
    (hx0 : 0 ≤ x) (hx : x < 750) (hy0 : 0 ≤ y) (hy : y < 500) :
    Generate tm noise₁ = Generate tm noise₂ ∧
    (Generate tm noise₁).2.pixelAt x y = some (pixelColor tm noise₁ x y) ∧
    (render tm noise₁ order (NewContext 750 500)).pixelAt x y =
      (Generate tm noise₁).2.pixelAt x y := by
  have hfun : noise₁ = noise₂ := funext fun u => funext fun v => hnoise u v
  have hmem : (x, y) ∈ rowMajor 750 500 :=
    (mem_rowMajor 750 500 (x, y)).2 ⟨hx0, by exact_mod_cast hx, hy0, by exact_mod_cast hy⟩
  refine ⟨by rw [hfun], pixelAt_Generate tm noise₁ x y hx0 hx hy0 hy, ?_⟩
  rw [pixelAt_Generate tm noise₁ x y hx0 hx hy0 hy, pixelAt,
    writesAt_render tm noise₁ order (horder.nodup_iff.2 (nodup_rowMajor 750 500))]
  simp [horder.mem_iff.2 hmem, writeOf]

/-- C9 for the default configuration, the pixels visited in reverse order. -/
theorem Generate_deterministic_witness :
    (render NewDefault zeroNoise (rowMajor 750 500).reverse (NewContext 750 500)).pixelAt 3 4 =
      (Generate NewDefault zeroNoise).2.pixelAt 3 4 :=
  (Generate_deterministic NewDefault zeroNoise zeroNoise (rowMajor 750 500).reverse 3 4
    (fun _ _ => rfl) (List.reverse_perm _) (by decide) (by decide) (by decide)
    (by decide)).2.2

/-- C10: with octaves = 0 the octave loop makes no pass, total and the
normalizer both stay 0, total / normalizer is NaN, so is the depth, every
comparison depth > threshold is false, the band is snow and every pixel of the
grid receives the snow colour. -/
theorem zero_octaves_all_snow (tm : TerrainMap) (noise : Float64 → Float64 → Float64)
    (x y : Int) (hoct : tm.octaves = 0) (hx0 : 0 ≤ x) (hx : x < 750) (hy0 : 0 ≤ y)
    (hy : y < 500) :
    (octaves tm noise x y).total = fin 0 ∧
    (octaves tm noise x y).normalizeOctaves = fin 0 ∧
    (octaves tm noise x y).total / (octaves tm noise x y).normalizeOctaves = nan ∧
    depth tm noise x y = nan ∧
    (¬ depth tm noise x y > fin f0_70 ∧ ¬ depth tm noise x y > fin f0_56 ∧
      ¬ depth tm noise x y > fin f0_52 ∧ ¬ depth tm noise x y > fin f0_50 ∧
      ¬ depth tm noise x y > fin f0_41 ∧ ¬ depth tm noise x y > fin f0_31 ∧
      ¬ depth tm noise x y > fin f0_23) ∧
    classify (depth tm noise x y) = .snow ∧
    (Generate tm noise).2.pixelAt x y = some tm.snow ∧
    (∀ w ∈ (Generate tm noise).2.writes, w.c = tm.snow) := by
  have hle : tm.octaves ≤ 0 := le_of_eq hoct
  have hs := octaves_of_nonpos tm noise x y hle
  have hd := depth_of_nonpos tm noise x y hle
  have hc : ∀ x' y' : Int, pixelColor tm noise x' y' = tm.snow := by
    intro x' y'
    rw [pixelColor, depth_of_nonpos tm noise x' y' hle]
    simp [classify, bandColor]
  refine ⟨?_, ?_, ?_, hd, ?_, ?_, ?_, ?_⟩
  · rw [hs]; norm_num [octaveInit]
  · rw [hs]; norm_num [octaveInit]
  · rw [hs]; norm_num [octaveInit]
  · rw [hd]; simp
  · rw [hd]; simp [classify]
  · rw [pixelAt_Generate tm noise x y hx0 hx hy0 hy, hc]
  · intro w hw
    rw [(mem_Generate_writes tm noise w hw).2.2.2.2, hc]

/-- C10 for the default configuration with its octave count set to 0. -/
theorem zero_octaves_all_snow_witness :
    (SetGenerationModifiers NewDefault (fin 125.0) (fin 2.0) (fin 0.5) 0).octaves = 0 ∧
    depth (SetGenerationModifiers NewDefault (fin 125.0) (fin 2.0) (fin 0.5) 0) ridgeNoise 125 0
      = nan ∧
    (Generate (SetGenerationModifiers NewDefault (fin 125.0) (fin 2.0) (fin 0.5) 0)
      ridgeNoise).2.pixelAt 125 0 = some { r := 230, g := 232, b := 237 } :=
  ⟨rfl,
    (zero_octaves_all_snow (SetGenerationModifiers NewDefault (fin 125.0) (fin 2.0) (fin 0.5) 0)
      ridgeNoise 125 0 rfl (by decide) (by decide) (by decide) (by decide)).2.2.2.1,
    (zero_octaves_all_snow (SetGenerationModifiers NewDefault (fin 125.0) (fin 2.0) (fin 0.5) 0)
      ridgeNoise 125 0 rfl (by decide) (by decide) (by decide) (by decide)).2.2.2.2.2.2.1⟩

/-! ## Degenerate depths, thresholds, monotonicity -/

theorem octaves_cancellingPersistance :
    (octaves cancellingPersistance ridgeNoise 125 0).total = fin 2 ∧
    (octaves cancellingPersistance ridgeNoise 125 0).normalizeOctaves = fin 0 := by
  constructor <;>
    norm_num [octaves, cancellingPersistance, SetGenerationModifiers, NewDefault, octaveLoop,
      octaveBody, octaveInit, ridgeNoise, ofInt]

theorem depth_cancellingPersistance : depth cancellingPersistance ridgeNoise 125 0 = pinf := by
  obtain ⟨h1, h2⟩ := octaves_cancellingPersistance
  rw [depth, h1, h2]
  norm_num [signedInf]

theorem classify_nan : classify nan = .snow := by simp [classify]

theorem classify_ninf : classify ninf = .snow := by simp [classify]

theorem classify_pinf : classify pinf = .deepWater := by simp [classify]

/-- The ladder of the source is the table `ladder`: the band is that of the
first entry whose comparison holds, and snow when there is none. -/
theorem classify_eq_ladder (d : Float64) :
    classify d = ((ladder.find? (fun e => decide (d > fin e.1))).map Prod.snd).getD .snow := by
  unfold classify ladder
  simp only [List.find?]
  split_ifs <;> simp [*]

theorem classify_fin_mono (a b : ℚ) (h : a ≤ b) :
    (classify (fin b)).rank ≤ (classify (fin a)).rank := by
  unfold classify
  simp only [gt_iff_lt, fin_lt_fin]
  by_cases h1 : f0_70 < b
  · rw [if_pos h1]
    split_ifs <;> simp [Band.rank]
  have g1 : ¬ f0_70 < a := fun h' => h1 (lt_of_lt_of_le h' h)
  rw [if_neg h1, if_neg g1]
  by_cases h2 : f0_56 < b
  · rw [if_pos h2]
    split_ifs <;> simp [Band.rank]
  have g2 : ¬ f0_56 < a := fun h' => h2 (lt_of_lt_of_le h' h)
  rw [if_neg h2, if_neg g2]
  by_cases h3 : f0_52 < b
  · rw [if_pos h3]
    split_ifs <;> simp [Band.rank]
  have g3 : ¬ f0_52 < a := fun h' => h3 (lt_of_lt_of_le h' h)
  rw [if_neg h3, if_neg g3]
  by_cases h4 : f0_50 < b
  · rw [if_pos h4]
    split_ifs <;> simp [Band.rank]
  have g4 : ¬ f0_50 < a := fun h' => h4 (lt_of_lt_of_le h' h)
  rw [if_neg h4, if_neg g4]
  by_cases h5 : f0_41 < b
  · rw [if_pos h5]
    split_ifs <;> simp [Band.rank]
  have g5 : ¬ f0_41 < a := fun h' => h5 (lt_of_lt_of_le h' h)
  rw [if_neg h5, if_neg g5]
  by_cases h6 : f0_31 < b
  · rw [if_pos h6]
    split_ifs <;> simp [Band.rank]
  have g6 : ¬ f0_31 < a := fun h' => h6 (lt_of_lt_of_le h' h)
  rw [if_neg h6, if_neg g6]
  by_cases h7 : f0_23 < b
  · rw [if_pos h7]
    split_ifs <;> simp [Band.rank]
  have g7 : ¬ f0_23 < a := fun h' => h7 (lt_of_lt_of_le h' h)
  rw [if_neg h7, if_neg g7]

/-- C11, as stated, fails for a depth of positive infinity.  With persistance
`-1`, two octaves, scale `125`, lacunarity `2` and a noise function that is
`1` at sample `(1, 0)` and `-1` at `(2, 0)`, pixel `(125, 0)` has
`total = 1 + (-1) * (-1) = 2` and normalizer `1 + (-1) = 0`; `2 / 0` is
`+Inf`, so is the depth, `+Inf > 0.70` holds and the pixel receives the
deepWater colour (8, 50, 201), not the snow colour. -/
theorem positive_infinite_depth_is_deepWater :
    (octaves cancellingPersistance ridgeNoise 125 0).total = fin 2 ∧
    (octaves cancellingPersistance ridgeNoise 125 0).normalizeOctaves = fin 0 ∧
    depth cancellingPersistance ridgeNoise 125 0 = pinf ∧
    classify (depth cancellingPersistance ridgeNoise 125 0) = .deepWater ∧
    (Generate cancellingPersistance ridgeNoise).2.pixelAt 125 0 =
      some { r := 8, g := 50, b := 201 } ∧
    cancellingPersistance.snow = { r := 230, g := 232, b := 237 } ∧
    (Generate cancellingPersistance ridgeNoise).2.pixelAt 125 0 ≠
      some cancellingPersistance.snow := by
  have hp : (Generate cancellingPersistance ridgeNoise).2.pixelAt 125 0 =
      some { r := 8, g := 50, b := 201 } := by
    rw [pixelAt_Generate _ _ 125 0 (by decide) (by decide) (by decide) (by decide), pixelColor,
      depth_cancellingPersistance, classify_pinf]
    rfl
  refine ⟨octaves_cancellingPersistance.1, octaves_cancellingPersistance.2,
    depth_cancellingPersistance, ?_, hp, rfl, ?_⟩
  · rw [depth_cancellingPersistance, classify_pinf]
  · rw [hp]
    simp [cancellingPersistance, SetGenerationModifiers, NewDefault]

/-- C11, amended: whenever the depth computed for a pixel is NaN or negative
infinity, `Generate` classifies the pixel into the catch-all band, snow, and
writes the snow colour; when the depth is positive infinity the first
comparison holds and the pixel is classified deepWater.  In neither case is a
failure signalled: the pixel is written. -/
theorem nonfinite_depth_band (tm : TerrainMap) (noise : Float64 → Float64 → Float64)
    (x y : Int) (hx0 : 0 ≤ x) (hx : x < 750) (hy0 : 0 ≤ y) (hy : y < 500) :
    (depth tm noise x y = nan ∨ depth tm noise x y = ninf →
      classify (depth tm noise x y) = .snow ∧
      (Generate tm noise).2.pixelAt x y = some tm.snow) ∧
    (depth tm noise x y = pinf →
      classify (depth tm noise x y) = .deepWater ∧
      (Generate tm noise).2.pixelAt x y = some tm.deepWater) := by
  have hpix := pixelAt_Generate tm noise x y hx0 hx hy0 hy
  constructor
  · intro h
    have hc : classify (depth tm noise x y) = .snow := by
      rcases h with h | h <;> rw [h]
      · exact classify_nan
      · exact classify_ninf
    exact ⟨hc, by rw [hpix, pixelColor, hc]; rfl⟩
  · intro h
    have hc : classify (depth tm noise x y) = .deepWater := by rw [h]; exact classify_pinf
    exact ⟨hc, by rw [hpix, pixelColor, hc]; rfl⟩

/-- The amended C11 at pixel `(125, 0)`: a NaN depth (no octave) gives the snow
colour, a depth of positive infinity (cancelling amplitudes) the deepWater colour. -/
theorem nonfinite_depth_band_witness :
    (Generate (SetGenerationModifiers NewDefault (fin 0.0) (fin 2.0) (fin 0.5) 0)
      ridgeNoise).2.pixelAt 125 0 = some { r := 230, g := 232, b := 237 } ∧
    (Generate cancellingPersistance ridgeNoise).2.pixelAt 125 0 =
      some { r := 8, g := 50, b := 201 } :=
  ⟨((nonfinite_depth_band (SetGenerationModifiers NewDefault (fin 0.0) (fin 2.0) (fin 0.5) 0)
      ridgeNoise 125 0 (by decide) (by decide) (by decide) (by decide)).1
      (Or.inl (depth_of_nonpos _ _ _ _ (le_refl 0)))).2,
    ((nonfinite_depth_band cancellingPersistance ridgeNoise 125 0 (by decide) (by decide)
      (by decide) (by decide)).2 depth_cancellingPersistance).2⟩

theorem rank_le_seven (k : Band) : k.rank ≤ 7 := by
  cases k <;> simp [Band.rank]

/-- C13, as stated, fails: the thresholds of the bands, taken in the order
deepWater, mediumWater, ..., rock, are 0.70, 0.56, 0.52, 0.50, 0.41, 0.31,
0.23; the threshold 0.70 that selects deepWater is not lower than the
threshold 0.56 that selects mediumWater, and the list is not ascending. -/
theorem thresholds_not_ascending :
    ladder.map Prod.snd ++ [Band.snow] =
      [.deepWater, .mediumWater, .shallowWater, .sand, .lowGrass, .highGrass, .rock, .snow] ∧
    ladder.map Prod.fst = [f0_70, f0_56, f0_52, f0_50, f0_41, f0_31, f0_23] ∧
    classify (fin 0.71) = .deepWater ∧ classify (fin 0.57) = .mediumWater ∧
    ¬ (f0_70 < f0_56) ∧
    ¬ List.Chain' (fun a b : ℚ => a < b) (ladder.map Prod.fst) := by
  refine ⟨rfl, rfl, by norm_num [classify, f0_70, f0_56, f0_52, f0_50, f0_41, f0_31, f0_23],
    by norm_num [classify, f0_70, f0_56, f0_52, f0_50, f0_41, f0_31, f0_23], by norm_num [f0_70, f0_56], ?_⟩
  simp only [ladder, List.map, List.chain'_cons]
  norm_num [f0_70, f0_56, f0_52, f0_50, f0_41, f0_31, f0_23]

/-- C13, amended: the eight bands taken in the order deepWater, mediumWater,
shallowWater, sand, lowGrass, highGrass, rock, snow are in descending
depth-threshold order: the threshold that selects each of the first seven
bands in `Generate` is higher than the threshold that selects the next one
(0.70 > 0.56 > 0.52 > 0.50 > 0.41 > 0.31 > 0.23), and snow, the last, is the
`else` branch without a threshold. -/
theorem thresholds_descending (d : Float64) :
    classify d = ((ladder.find? (fun e => decide (d > fin e.1))).map Prod.snd).getD .snow ∧
    ladder.map Prod.snd ++ [Band.snow] =
      [.deepWater, .mediumWater, .shallowWater, .sand, .lowGrass, .highGrass, .rock, .snow] ∧
    ladder.map Prod.fst = [f0_70, f0_56, f0_52, f0_50, f0_41, f0_31, f0_23] ∧
    List.Chain' (fun a b : ℚ => a > b) (ladder.map Prod.fst) ∧
    (∀ e ∈ ladder, e.2 ≠ Band.snow) := by
  refine ⟨classify_eq_ladder d, rfl, rfl, ?_, ?_⟩
  · simp only [ladder, List.map, List.chain'_cons, List.chain'_singleton]
    norm_num [f0_70, f0_56, f0_52, f0_50, f0_41, f0_31, f0_23]
  · intro e he
    simp only [ladder, List.mem_cons, List.mem_singleton, List.not_mem_nil, or_false] at he
    rcases he with h | h | h | h | h | h | h <;> rw [h] <;> simp

/-- C15: the classification is monotone in the depth: for all depths
`d1 <= d2` the band selected for `d2` is the same as or earlier than the band
selected for `d1` in the order deepWater, mediumWater, shallowWater, sand,
lowGrass, highGrass, rock, snow. -/
theorem classify_monotone (d1 d2 : Float64) (h : d1 ≤ d2) :
    (classify d2).rank ≤ (classify d1).rank := by
  cases d1 with
  | fin a =>
    cases d2 with
    | fin b => exact classify_fin_mono a b h
    | pinf => rw [classify_pinf]; exact Nat.zero_le _
    | ninf => exact (h : False).elim
    | nan => exact (h : False).elim
  | pinf =>
    cases d2 with
    | fin b => exact (h : False).elim
    | pinf => exact le_refl _
    | ninf => exact (h : False).elim
    | nan => exact (h : False).elim
  | ninf =>
    cases d2 with
    | fin b => rw [classify_ninf]; exact rank_le_seven _
    | pinf => rw [classify_ninf]; exact rank_le_seven _
    | ninf => exact le_refl _
    | nan => exact (h : False).elim
  | nan => cases d2 <;> exact (h : False).elim

/-- C15 for the depths 0.3 (rock) and 0.6 (mediumWater). -/
theorem classify_monotone_witness :
    fin 0.3 ≤ fin 0.6 ∧ classify (fin 0.3) = .rock ∧ classify (fin 0.6) = .mediumWater ∧
    (classify (fin 0.6)).rank ≤ (classify (fin 0.3)).rank :=
  have h : fin 0.3 ≤ fin 0.6 := by
    show (0.3 : ℚ) ≤ 0.6
    norm_num
  ⟨h, by norm_num [classify, f0_70, f0_56, f0_52, f0_50, f0_41, f0_31, f0_23], by norm_num [classify, f0_70, f0_56, f0_52, f0_50, f0_41, f0_31, f0_23], classify_monotone (fin 0.3) (fin 0.6) h⟩

/-! ## The octave loop in closed form -/

theorem octaveLoop_succ (tm : TerrainMap) (noise : Float64 → Float64 → Float64)
    (sx sy : Float64) (n : Nat) (s : OctaveState) :
    octaveLoop tm noise sx sy (n + 1) s =
      octaveBody tm noise sx sy (octaveLoop tm noise sx sy n s) := by
  induction n generalizing s with
  | zero => rfl
  | succ n ih => rw [octaveLoop, ih, ← octaveLoop]

theorem octaveLoop_congr (tm tm' : TerrainMap) (noise : Float64 → Float64 → Float64)
    (sx sy : Float64) (hl : tm'.lacunarity = tm.lacunarity)
    (hp : tm'.persistance = tm.persistance) (n : Nat) (s : OctaveState) :
    octaveLoop tm' noise sx sy n s = octaveLoop tm noise sx sy n s := by
  induction n generalizing s with
  | zero => rfl
  | succ n ih =>
    have hb : octaveBody tm' noise sx sy s = octaveBody tm noise sx sy s := by
      simp [octaveBody, hl, hp]
    rw [octaveLoop, octaveLoop, hb, ih]

/-- The state of the octave loop after `n` passes, in exact arithmetic. -/
theorem octaveLoop_closed (tm : TerrainMap) (noise : Float64 → Float64 → Float64)
    (f : Float64 → Float64 → ℚ) (sx sy : Float64) (l p : ℚ) (hl : tm.lacunarity = fin l)
    (hp : tm.persistance = fin p) (hnoise : ∀ u v, noise u v = fin (f u v)) (n : Nat) :
    octaveLoop tm noise sx sy n octaveInit =
      { frequency := fin (l ^ n), amplitude := fin (p ^ n),
        normalizeOctaves := fin (normalizerSum p n),
        total := fin (totalSum f sx sy l p n) } := by
  induction n with
  | zero => norm_num [octaveLoop, octaveInit, normalizerSum, totalSum]
  | succ n ih =>
    rw [octaveLoop_succ, ih]
    simp [octaveBody, hl, hp, hnoise, normalizerSum, totalSum, List.range_succ, pow_succ]

theorem add_eq_fin (u v : Float64) (q : ℚ) (h : u + v = fin q) :
    ∃ a b : ℚ, u = fin a ∧ v = fin b ∧ q = a + b := by
  cases u <;> cases v <;> first
    | (injection h with h; exact ⟨_, _, rfl, rfl, h.symm⟩)
    | exact absurd h (by intro h'; cases h')

/-- With a noise function that is constantly `c`, a finite normalizer `N`
comes with the total `c * N`. -/
theorem octaveLoop_const (tm : TerrainMap) (c : ℚ) (sx sy : Float64) (n : Nat) :
    ∀ N : ℚ, (octaveLoop tm (fun _ _ => fin c) sx sy n octaveInit).normalizeOctaves = fin N →
      (octaveLoop tm (fun _ _ => fin c) sx sy n octaveInit).total = fin (c * N) := by
  induction n with
  | zero =>
    intro N h
    simp only [octaveLoop, octaveInit] at h ⊢
    injection h with h
    rw [← h]
    norm_num
  | succ n ih =>
    intro N h
    rw [octaveLoop_succ] at h ⊢
    simp only [octaveBody] at h ⊢
    obtain ⟨a, b, ha, hb, hN⟩ := add_eq_fin _ _ N h
    rw [ih a ha, hb, hN]
    simp [mul_add]

/-- The amplitude and the normalizer do not depend on the noise function or
on the sample point. -/
theorem octaveLoop_normalizer_indep (tm : TerrainMap) (noise noise' : Float64 → Float64 → Float64)
    (sx sy sx' sy' : Float64) (n : Nat) :
    (octaveLoop tm noise sx sy n octaveInit).normalizeOctaves =
      (octaveLoop tm noise' sx' sy' n octaveInit).normalizeOctaves ∧
    (octaveLoop tm noise sx sy n octaveInit).amplitude =
      (octaveLoop tm noise' sx' sy' n octaveInit).amplitude := by
  induction n with
  | zero => exact ⟨rfl, rfl⟩
  | succ n ih =>
    rw [octaveLoop_succ, octaveLoop_succ]
    simp only [octaveBody]
    rw [ih.1, ih.2]
    exact ⟨rfl, rfl⟩

/-- C12: for every pixel `(x, y)` and every octave count, with a lacunarity `l`,
a persistance `p` and noise values that are numbers, the octave loop of
`Generate` ends with total = sum over i < n of
noise(sampleX * l^i, sampleY * l^i) * p^i and normalizer = sum over i < n of
p^i, where n is the octave count (no pass for a count <= 0) and
sampleX = x / scale, sampleY = y / scale (the rationals x / s, y / s for a
scale s != 0); octave 0 has frequency 1 and amplitude 1; the depth is
(total / normalizer + 1) / 2, in exact arithmetic when the normalizer is not 0. -/
theorem octaves_closed_form (tm : TerrainMap) (noise : Float64 → Float64 → Float64)
    (f : Float64 → Float64 → ℚ) (l p : ℚ) (x y : Int) (hl : tm.lacunarity = fin l)
    (hp : tm.persistance = fin p) (hnoise : ∀ u v, noise u v = fin (f u v)) :
    (octaves tm noise x y).total =
      fin (((List.range tm.octaves.toNat).map (fun i =>
        f (ofInt x / tm.scale * fin (l ^ i)) (ofInt y / tm.scale * fin (l ^ i)) * p ^ i)).sum) ∧
    (octaves tm noise x y).normalizeOctaves =
      fin (((List.range tm.octaves.toNat).map (fun i => p ^ i)).sum) ∧
    depth tm noise x y =
      ((octaves tm noise x y).total / (octaves tm noise x y).normalizeOctaves + fin 1) / fin 2 ∧
    (normalizerSum p tm.octaves.toNat ≠ 0 →
      depth tm noise x y =
        fin ((totalSum f (ofInt x / tm.scale) (ofInt y / tm.scale) l p tm.octaves.toNat /
          normalizerSum p tm.octaves.toNat + 1) / 2)) ∧
    (∀ (s : ℚ) (i : Nat), tm.scale = fin s → s ≠ 0 →
      ofInt x / tm.scale * fin (l ^ i) = fin (x / s * l ^ i) ∧
      ofInt y / tm.scale * fin (l ^ i) = fin (y / s * l ^ i)) ∧
    (l ^ 0 = 1 ∧ p ^ 0 = 1) := by
  have hc := octaveLoop_closed tm noise f (ofInt x / tm.scale) (ofInt y / tm.scale) l p hl hp
    hnoise tm.octaves.toNat
  have ht : (octaves tm noise x y).total =
      fin (totalSum f (ofInt x / tm.scale) (ofInt y / tm.scale) l p tm.octaves.toNat) := by
    rw [octaves, hc]
  have hn : (octaves tm noise x y).normalizeOctaves =
      fin (normalizerSum p tm.octaves.toNat) := by
    rw [octaves, hc]
  refine ⟨ht, hn, rfl, ?_, ?_, pow_zero l, pow_zero p⟩
  · intro h0
    rw [depth, ht, hn]
    simp [h0]
  · intro s i hs hs0
    rw [hs]
    simp [ofInt, hs0]

/-- C12 for the default configuration and the zero noise at pixel `(3, 4)`:
five octaves, normalizer 1 + 1/2 + 1/4 + 1/8 + 1/16. -/
theorem octaves_closed_form_witness :
    (octaves NewDefault zeroNoise 3 4).normalizeOctaves =
      fin (((List.range 5).map (fun i => (0.5 : ℚ) ^ i)).sum) ∧
    (((List.range 5).map (fun i => (0.5 : ℚ) ^ i)).sum) = 1 + 1 / 2 + 1 / 4 + 1 / 8 + 1 / 16 :=
  ⟨(octaves_closed_form NewDefault zeroNoise (fun _ _ => 0.0) 2.0 0.5 3 4 rfl rfl
      (fun _ _ => rfl)).2.1,
    by norm_num [List.range_succ]⟩

/-- C14: for every configuration with octaves >= 1 and a persistance that is
a number >= 0 (any scale and any lacunarity) and every noise function with all
samples in [-1, 1], in exact arithmetic the normalizer is >= 1,
|total| <= normalizer, and the depth (total / normalizer + 1) / 2 lies in [0, 1]. -/
theorem normalizer_ge_one (tm : TerrainMap) (noise : Float64 → Float64 → Float64)
    (x y : Int) (p : ℚ) (hoct : 1 ≤ tm.octaves) (hp : tm.persistance = fin p) (hp0 : 0 ≤ p)
    (hnoise : ∀ u v, ∃ q : ℚ, noise u v = fin q ∧ -1 ≤ q ∧ q ≤ 1) :
    ∃ n t : ℚ, (octaves tm noise x y).normalizeOctaves = fin n ∧
      (octaves tm noise x y).total = fin t ∧ 1 ≤ n ∧ |t| ≤ n ∧
      depth tm noise x y = fin ((t / n + 1) / 2) ∧
      0 ≤ (t / n + 1) / 2 ∧ (t / n + 1) / 2 ≤ 1 := by
  obtain ⟨n, t, hn, ht, htn, hn1⟩ :=
    octaves_bound tm noise x y hoct (Or.inr ⟨p, hp, hp0⟩) hnoise
  have hne : n ≠ 0 := by linarith
  obtain ⟨d, hd, hd0, hd1⟩ := depth_bound_of n t htn hn1
  have hd' : d = (t / n + 1) / 2 := by
    have h := hd
    simp only [fin_div_fin, hne, if_false, fin_add_fin] at h
    norm_num at h
    exact h.symm
  subst hd'
  exact ⟨n, t, hn, ht, hn1, htn, by rw [depth, hn, ht, hd], hd0, hd1⟩

/-- C14 for the default configuration and the ridge noise at pixel `(125, 0)`. -/
theorem normalizer_ge_one_witness :
    (1 : Int) ≤ NewDefault.octaves ∧ (0 : ℚ) ≤ 0.5 ∧
    ∃ n t : ℚ, (octaves NewDefault ridgeNoise 125 0).normalizeOctaves = fin n ∧
      (octaves NewDefault ridgeNoise 125 0).total = fin t ∧ 1 ≤ n ∧ |t| ≤ n ∧
      depth NewDefault ridgeNoise 125 0 = fin ((t / n + 1) / 2) ∧
      0 ≤ (t / n + 1) / 2 ∧ (t / n + 1) / 2 ≤ 1 :=
  ⟨by decide, by norm_num,
    normalizer_ge_one NewDefault ridgeNoise 125 0 0.5 (by decide) rfl (by norm_num)
      (fun u _ => by
        by_cases h : u = fin 1
        · exact ⟨1, by simp [ridgeNoise, h], by norm_num, by norm_num⟩
        · exact ⟨-1, by simp [ridgeNoise, h], by norm_num, by norm_num⟩)⟩

/-- C16: for every configuration whose normalizer is a number other than 0
and every noise function that returns the same constant `c` for all samples,
the depth of every pixel is exactly (c + 1) / 2, whatever x, y, the scale, the
lacunarity, the persistance and the octave count are, and every pixel of the
image receives the colour of the one band that (c + 1) / 2 classifies to. -/
theorem constant_noise_depth (tm : TerrainMap) (c N : ℚ) (x y : Int)
    (hN : (octaves tm (fun _ _ => fin c) x y).normalizeOctaves = fin N) (hN0 : N ≠ 0)
    (hx0 : 0 ≤ x) (hx : x < 750) (hy0 : 0 ≤ y) (hy : y < 500) :
    (∀ x' y' : Int, depth tm (fun _ _ => fin c) x' y' = fin ((c + 1) / 2)) ∧
    (Generate tm (fun _ _ => fin c)).2.pixelAt x y =
      some (bandColor tm (classify (fin ((c + 1) / 2)))) ∧
    (∀ w ∈ (Generate tm (fun _ _ => fin c)).2.writes,
      w.c = bandColor tm (classify (fin ((c + 1) / 2)))) := by
  have hd : ∀ x' y' : Int, depth tm (fun _ _ => fin c) x' y' = fin ((c + 1) / 2) := by
    intro x' y'
    have hN' : (octaves tm (fun _ _ => fin c) x' y').normalizeOctaves = fin N := by
      rw [← hN]
      exact (octaveLoop_normalizer_indep tm _ _ _ _ _ _ tm.octaves.toNat).1
    have ht := octaveLoop_const tm c (ofInt x' / tm.scale) (ofInt y' / tm.scale)
      tm.octaves.toNat N hN'
    have ht' : (octaves tm (fun _ _ => fin c) x' y').total = fin (c * N) := ht
    rw [depth, hN', ht']
    simp [hN0]
  have hc : ∀ x' y' : Int, pixelColor tm (fun _ _ => fin c) x' y' =
      bandColor tm (classify (fin ((c + 1) / 2))) := by
    intro x' y'
    rw [pixelColor, hd]
  refine ⟨hd, ?_, ?_⟩
  · rw [pixelAt_Generate tm _ x y hx0 hx hy0 hy, hc]
  · intro w hw
    rw [(mem_Generate_writes tm _ w hw).2.2.2.2, hc]

/-- C16 for the default configuration and the constant noise 0.5: depth 0.75,
band deepWater. -/
theorem constant_noise_depth_witness :
    depth NewDefault (fun _ _ => fin 0.5) 7 9 = fin ((0.5 + 1) / 2) ∧
    classify (fin ((0.5 + 1) / 2)) = .deepWater :=
  ⟨(constant_noise_depth NewDefault 0.5 1.9375 0 0
      (by norm_num [octaves, NewDefault, octaveLoop, octaveBody, octaveInit]) (by norm_num)
      (by decide) (by decide) (by decide) (by decide)).1 7 9,
    by norm_num [classify, f0_70, f0_56, f0_52, f0_50, f0_41, f0_31, f0_23]⟩

theorem octaveLoopIn_exact (tm : TerrainMap) (noise : Float64 → Float64 → Float64)
    (sx sy : Float64) (n : Nat) (s : OctaveState) :
    octaveLoopIn exactArith tm.lacunarity tm.persistance noise sx sy n s.toIn =
      (octaveLoop tm noise sx sy n s).toIn := by
  induction n generalizing s with
  | zero => rfl
  | succ n ih =>
    rw [octaveLoopIn, octaveLoop, ← ih]
    rfl

/-- The depth of the embedding is `depthIn` over the exact arithmetic. -/
theorem depth_eq_depthIn (tm : TerrainMap) (noise : Float64 → Float64 → Float64) (x y : Int) :
    depth tm noise x y =
      depthIn exactArith tm.scale tm.lacunarity tm.persistance tm.octaves noise x y := by
  have h := octaveLoopIn_exact tm noise (ofInt x / tm.scale) (ofInt y / tm.scale)
    tm.octaves.toNat octaveInit
  have e : (fin 1 : Float64) = fin 1.0 := by norm_num
  simp only [depth, octaves, depthIn]
  rw [e]
  exact congrArg (fun s : OctaveStateIn Float64 =>
    (s.total / s.normalizeOctaves + fin 1.0) / fin 2) h.symm

theorem exactArith_laws :
    (∀ a : Float64, exactArith.mul a exactArith.one = a) ∧
    exactArith.add exactArith.zero exactArith.one = exactArith.one ∧
    (∀ a : Float64, exactArith.div a exactArith.one = a) ∧
    (∀ a : Float64, exactArith.add (exactArith.add exactArith.zero a) exactArith.one =
      exactArith.add a exactArith.one) := by
  refine ⟨?_, ?_, ?_, ?_⟩
  · intro a
    cases a with
    | fin q => show fin q * fin 1.0 = fin q; norm_num
    | pinf => show Float64.mul pinf (fin 1.0) = pinf; norm_num [Float64.mul, signedInf]
    | ninf => show Float64.mul ninf (fin 1.0) = ninf; norm_num [Float64.mul, signedInf]
    | nan => rfl
  · show fin 0.0 + fin 1.0 = fin 1.0
    norm_num
  · intro a
    cases a with
    | fin q => show fin q / fin 1.0 = fin q; norm_num
    | pinf => show Float64.div pinf (fin 1.0) = pinf; norm_num [Float64.div]
    | ninf => show Float64.div ninf (fin 1.0) = ninf; norm_num [Float64.div]
    | nan => rfl
  · intro a
    cases a with
    | fin q => show fin 0.0 + fin q + fin 1.0 = fin q + fin 1.0; norm_num
    | pinf => rfl
    | ninf => rfl
    | nan => rfl

/-- C17: with octaves = 1, for every pixel `(x, y)`, every scale and every
noise function, the depth is exactly (noise(x / scale, y / scale) + 1) / 2,
whatever the persistance and the lacunarity are: the updates of amplitude and
frequency after the only octave have no effect.  The operations are those of
the arithmetic in which the code runs; the statement holds in every
arithmetic in which `a * 1 = a`, `0 + 1 = 1`, `a / 1 = a` and
`(0 + a) + 1 = a + 1`, as in IEEE-754 `float64` with its rounded operations
and in exact arithmetic. -/
theorem single_octave_depth {α : Type} (A : Arith α) (scale lacunarity persistance : α)
    (noise : α → α → α) (x y : Int)
    (hmul : ∀ a, A.mul a A.one = a) (hone : A.add A.zero A.one = A.one)
    (hdiv : ∀ a, A.div a A.one = a)
    (hzero : ∀ a, A.add (A.add A.zero a) A.one = A.add a A.one) :
    depthIn A scale lacunarity persistance 1 noise x y =
      A.div (A.add (noise (A.div (A.ofInt x) scale) (A.div (A.ofInt y) scale)) A.one) A.two ∧
    (∀ lacunarity' persistance' : α,
      depthIn A scale lacunarity' persistance' 1 noise x y =
        depthIn A scale lacunarity persistance 1 noise x y) := by
  have key : ∀ l p : α, depthIn A scale l p 1 noise x y =
      A.div (A.add (noise (A.div (A.ofInt x) scale) (A.div (A.ofInt y) scale)) A.one)
        A.two := by
    intro l p
    have h1 : (1 : Int).toNat = 1 := rfl
    simp only [depthIn, h1, octaveLoopIn, octaveBodyIn]
    rw [hmul, hmul, hmul, hone, hdiv, hzero]
  exact ⟨key lacunarity persistance, fun l' p' => by rw [key l', key lacunarity]⟩

/-- C17 in the exact arithmetic, for one octave of the ridge noise at pixel
`(125, 0)` with scale 125, lacunarity 3 and persistance -7. -/
theorem single_octave_depth_witness :
    (SetGenerationModifiers NewDefault (fin 125) (fin 3) (fin (-7)) 1).octaves = 1 ∧
    depth (SetGenerationModifiers NewDefault (fin 125) (fin 3) (fin (-7)) 1) ridgeNoise 125 0 =
      (ridgeNoise (ofInt 125 / fin 125) (ofInt 0 / fin 125) + fin 1.0) / fin 2 :=
  ⟨rfl,
    (depth_eq_depthIn (SetGenerationModifiers NewDefault (fin 125) (fin 3) (fin (-7)) 1)
      ridgeNoise 125 0).trans
      (single_octave_depth exactArith (fin 125) (fin 3) (fin (-7)) ridgeNoise 125 0
        exactArith_laws.1 exactArith_laws.2.1 exactArith_laws.2.2.1 exactArith_laws.2.2.2).1⟩

/-- C18: scaling invariance of the sampling, in exact arithmetic: for every
configuration with scale s != 0, every positive integer k and every pixel
`(x, y)`, the depth, hence the band, computed at pixel `(k * x, k * y)` under
scale k * s equals the depth computed at `(x, y)` under scale s, the other
parameters and the noise function being the same. -/
theorem depth_scale_invariant (tm : TerrainMap) (noise : Float64 → Float64 → Float64)
    (x y k : Int) (s : ℚ) (hs : tm.scale = fin s) (hs0 : s ≠ 0) (hk : 0 < k) :
    depth (SetGenerationModifiers tm (fin (k * s)) tm.lacunarity tm.persistance tm.octaves)
      noise (k * x) (k * y) = depth tm noise x y ∧
    classify (depth (SetGenerationModifiers tm (fin (k * s)) tm.lacunarity tm.persistance
      tm.octaves) noise (k * x) (k * y)) = classify (depth tm noise x y) := by
  have hk0 : (k : ℚ) ≠ 0 := by
    have : (0 : ℚ) < k := by exact_mod_cast hk
    exact ne_of_gt this
  have hks : (k : ℚ) * s ≠ 0 := mul_ne_zero hk0 hs0
  have hsample : ∀ z : Int, ofInt (k * z) / fin (k * s) = ofInt z / tm.scale := by
    intro z
    rw [hs]
    simp only [ofInt, fin_div_fin, hks, hs0, if_false]
    congr 1
    push_cast
    exact mul_div_mul_left _ _ hk0
  have hd : depth (SetGenerationModifiers tm (fin (k * s)) tm.lacunarity tm.persistance
      tm.octaves) noise (k * x) (k * y) = depth tm noise x y := by
    simp only [depth, octaves]
    have e1 : (SetGenerationModifiers tm (fin (k * s)) tm.lacunarity tm.persistance
        tm.octaves).scale = fin (k * s) := rfl
    have e2 : (SetGenerationModifiers tm (fin (k * s)) tm.lacunarity tm.persistance
        tm.octaves).octaves = tm.octaves := rfl
    rw [e1, e2, hsample x, hsample y,
      octaveLoop_congr tm
        (SetGenerationModifiers tm (fin (k * s)) tm.lacunarity tm.persistance tm.octaves)
        noise _ _ rfl rfl]
  exact ⟨hd, by rw [hd]⟩

/-- C18 for the default configuration (scale 125): pixel `(6, 9)` under scale
375 has the depth of pixel `(2, 3)` under scale 125. -/
theorem depth_scale_invariant_witness :
    (125 : ℚ) ≠ 0 ∧ (0 : Int) < 3 ∧
    depth (SetGenerationModifiers NewDefault (fin (((3 : Int) : ℚ) * 125))
      NewDefault.lacunarity NewDefault.persistance NewDefault.octaves) ridgeNoise (3 * 2) (3 * 3)
      = depth NewDefault ridgeNoise 2 3 :=
  ⟨by norm_num, by decide,
    (depth_scale_invariant NewDefault ridgeNoise 2 3 3 125 (by norm_num [NewDefault])
      (by norm_num) (by decide)).1⟩

/-- C19: `Generate` only reads the configuration: after it returns, the four
shape parameters and the eight band colours are what they were before the
call, so a second `Generate` call runs with the same parameters. -/
theorem Generate_keeps_configuration (tm : TerrainMap)
    (noise noise' : Float64 → Float64 → Float64) :
    (Generate tm noise).1 = tm ∧
    (Generate tm noise).1.scale = tm.scale ∧
    (Generate tm noise).1.lacunarity = tm.lacunarity ∧
    (Generate tm noise).1.persistance = tm.persistance ∧
    (Generate tm noise).1.octaves = tm.octaves ∧
    (Generate tm noise).1.deepWater = tm.deepWater ∧
    (Generate tm noise).1.mediumWater = tm.mediumWater ∧
    (Generate tm noise).1.shallowWater = tm.shallowWater ∧
    (Generate tm noise).1.sand = tm.sand ∧
    (Generate tm noise).1.lowGrass = tm.lowGrass ∧
    (Generate tm noise).1.highGrass = tm.highGrass ∧
    (Generate tm noise).1.rock = tm.rock ∧
    (Generate tm noise).1.snow = tm.snow ∧
    Generate (Generate tm noise).1 noise' = Generate tm noise' :=
  ⟨rfl, rfl, rfl, rfl, rfl, rfl, rfl, rfl, rfl, rfl, rfl, rfl, rfl, rfl⟩

end tg
